import Mathlib

/-!
Shallow embedding of the session/round orchestration engine of the
Node-Against-Humanity server (`src/server.js`, with the older revision of the
same file kept in the repository as a second source).  JavaScript objects
become Lean structures, the mutable per-lobby state becomes explicit state
passing, `Math.random`-driven shuffles take an explicit stream of random
numbers, and handlers that can throw (dereference `undefined`) return
`Option`: `none` is an uncaught exception, `some` is normal completion
(including silent early `return`s).
-/

namespace NAH

/-- A card.  White cards use `id` and `text`; black (prompt) cards also carry
their `pick` count.  In the source, ids are the strings assigned by
`CAHDeck.getPacks`. -/
structure Card where
  id : String
  text : String
  pick : Nat
deriving DecidableEq, Repr

/-- A roster entry, mirroring the player objects created in `createLobby` /
`joinLobby`: `{ id: socket.id, name, score, hand, submittedCards }`. -/
structure Player where
  id : String
  name : String
  score : Nat
  hand : List Card
  submittedCards : Option (List Card)
deriving DecidableEq, Repr

/-- An entry of `lobby.roundSubmissions`:
`{ playerId, playerName, cards }`. -/
structure Submission where
  playerId : String
  playerName : String
  cards : List Card
deriving DecidableEq, Repr

/-- `lobby.roundWinnerInfo`. -/
structure RoundWinnerInfo where
  winnerName : String
  winningCardsText : List String
  blackCardText : String
deriving DecidableEq, Repr

/-- The five values the loosely-typed `lobby.gameState` string field takes. -/
inductive GameState where
  | waiting
  | playing
  | judging
  | roundOver
  | gameOver
deriving DecidableEq, Repr

/-- `lobby.settings`. -/
structure Settings where
  scoreToWin : Nat
  maxPlayers : Nat
  selectedPackIndexes : List Nat
  isPrivate : Bool
deriving DecidableEq, Repr

/-- One session (`lobbies[code]`).  Deck "tops" are at the end of the lists,
matching JavaScript `Array.prototype.pop`. -/
structure Lobby where
  code : String
  players : List Player
  hostId : String
  gameState : GameState
  settings : Settings
  whiteDeck : List Card
  blackDeck : List Card
  whiteDiscard : List Card
  blackDiscard : List Card
  currentBlackCard : Option Card
  czarId : Option String
  roundSubmissions : List Submission
  roundWinnerInfo : Option RoundWinnerInfo
deriving DecidableEq, Repr

/-- Outbound notifications relevant to the claims: `gameError` and
`handUpdate` are unicast to one connection, the rest are room broadcasts. -/
inductive Msg where
  | gameError (dest : String) (text : String)
  | handUpdate (dest : String)
  | lobbyUpdate
  | gameOverMsg
  | gameMessage
deriving DecidableEq, Repr

/-- `MAX_HAND_SIZE` from the source. -/
def MAX_HAND_SIZE : Nat := 10

/-- `getLobbyPlayer(lobby, playerId)`:
`lobby.players.find(p => p.id === playerId)`. -/
def getLobbyPlayer (lobby : Lobby) (playerId : String) : Option Player :=
  lobby.players.find? (fun p => p.id == playerId)

/-- One step of `shuffleArray`'s body:
`[array[i], array[j]] = [array[j], array[i]]`.  Out-of-range indices leave
the list unchanged (they do not occur in the shuffle loop). -/
def listSwap (l : List α) (i j : Nat) : List α :=
  match l[i]?, l[j]? with
  | some x, some y => (l.set i y).set j x
  | _, _ => l

/-- The loop of `shuffleArray`, counting `i` down from `array.length - 1`
to `1`; each iteration consumes one value from the random stream and picks
`j = value % (i + 1)`, modelling `Math.floor(Math.random() * (i + 1))`. -/
def shuffleGo (l : List α) (i : Nat) (rng : List Nat) : List α × List Nat :=
  match i with
  | 0 => (l, rng)
  | k + 1 => shuffleGo (listSwap l (k + 1) (rng.headD 0 % (k + 2))) k rng.tail

/-- `shuffleArray(array)` (Fisher–Yates, in place in the source), with the
random draws made explicit and the remaining stream returned. -/
def shuffleList (l : List α) (rng : List Nat) : List α × List Nat :=
  shuffleGo l (l.length - 1) rng

theorem multiset_set (l : List α) (i : Nat) (x y : α)
    (h : l[i]? = some x) :
    ((l.set i y : List α) : Multiset α) + {x} = (l : Multiset α) + {y} := by
  induction l generalizing i with
  | nil => simp at h
  | cons a t ih =>
    cases i with
    | zero =>
      simp only [List.getElem?_cons_zero, Option.some.injEq] at h
      subst h
      simp only [List.set_cons_zero, ← Multiset.cons_coe, ← Multiset.singleton_add]
      abel
    | succ n =>
      simp only [List.getElem?_cons_succ] at h
      have ht := ih n h
      simp only [List.set_cons_succ, ← Multiset.cons_coe, Multiset.cons_add]
      rw [ht]

theorem listSwap_coe (l : List α) (i j : Nat) :
    ((listSwap l i j : List α) : Multiset α) = (l : Multiset α) := by
  unfold listSwap
  cases hi : l[i]? with
  | none => rfl
  | some x =>
    cases hj : l[j]? with
    | none => rfl
    | some y =>
      simp only
      have hjlen : j < l.length := by
        by_contra hc
        rw [List.getElem?_eq_none (by omega)] at hj
        exact Option.noConfusion hj
      have hmid : (l.set i y)[j]? = some y := by
        rcases eq_or_ne i j with rfl | hne
        · exact List.getElem?_set_self (by simpa using hjlen)
        · rw [List.getElem?_set_ne hne]; exact hj
      have e1 := multiset_set (l.set i y) j y x hmid
      have e2 := multiset_set l i x y hi
      have : (((l.set i y).set j x : List α) : Multiset α) + {y} =
          (l : Multiset α) + {y} := by
        rw [e1, e2]
      exact add_right_cancel this

theorem shuffleGo_coe (i : Nat) :
    ∀ (l : List α) (rng : List Nat),
      (((shuffleGo l i rng).1 : List α) : Multiset α) = (l : Multiset α) := by
  induction i with
  | zero => intro l rng; rfl
  | succ k ih =>
    intro l rng
    simp only [shuffleGo]
    rw [ih, listSwap_coe]

theorem shuffleList_coe (l : List α) (rng : List Nat) :
    (((shuffleList l rng).1 : List α) : Multiset α) = (l : Multiset α) :=
  shuffleGo_coe (l.length - 1) l rng

theorem shuffleList_length (l : List α) (rng : List Nat) :
    (shuffleList l rng).1.length = l.length := by
  have h := congrArg Multiset.card (shuffleList_coe l rng)
  simpa using h

theorem shuffleList_ne_nil (l : List α) (rng : List Nat) (h : l ≠ []) :
    (shuffleList l rng).1 ≠ [] := by
  intro hc
  apply h
  have := shuffleList_length l rng
  rw [hc] at this
  exact List.length_eq_zero.mp this.symm

/-- The loop body of `dealWhiteCards(lobby, player, count)`: when the white
draw pile is empty it either breaks (discard also empty) or reshuffles the
whole discard pile into the draw pile; then it pops the top of the draw pile
into the hand.  State is `(whiteDeck, whiteDiscard, hand, rng)`. -/
def dealGo (count : Nat) (deck discard hand : List Card) (rng : List Nat) :
    List Card × List Card × List Card × List Nat :=
  match count with
  | 0 => (deck, discard, hand, rng)
  | n + 1 =>
    match deck with
    | [] =>
      match discard with
      | [] => (deck, discard, hand, rng)
      | _ :: _ =>
        match (shuffleList discard rng).1.getLast? with
        | some c => dealGo n (shuffleList discard rng).1.dropLast []
            (hand ++ [c]) (shuffleList discard rng).2
        | none => ((shuffleList discard rng).1, [], hand, (shuffleList discard rng).2)
    | _ :: _ =>
      match deck.getLast? with
      | some c => dealGo n deck.dropLast discard (hand ++ [c]) rng
      | none => (deck, discard, hand, rng)

/-- Multiset conservation of the deal loop: no white card is created or
dropped while dealing, across any number of reshuffles. -/
theorem dealGo_coe (count : Nat) :
    ∀ (deck discard hand : List Card) (rng : List Nat),
      let r := dealGo count deck discard hand rng
      ((r.1 : List Card) : Multiset Card) + (r.2.1 : Multiset Card)
        + (r.2.2.1 : Multiset Card)
      = (deck : Multiset Card) + (discard : Multiset Card)
        + (hand : Multiset Card) := by
  induction count with
  | zero => intro deck discard hand rng; rfl
  | succ n ih =>
    intro deck discard hand rng
    simp only [dealGo]
    cases deck with
    | nil =>
      cases discard with
      | nil => rfl
      | cons d ds =>
        simp only
        cases hlast : (shuffleList (d :: ds) rng).1.getLast? with
        | none =>
          have hne := shuffleList_ne_nil (d :: ds) rng (by simp)
          rw [List.getLast?_eq_getLast _ hne] at hlast
          exact absurd hlast (by simp)
        | some c =>
          have hne := shuffleList_ne_nil (d :: ds) rng (by simp)
          have hsplit : (shuffleList (d :: ds) rng).1.dropLast ++ [c]
              = (shuffleList (d :: ds) rng).1 := by
            rw [List.getLast?_eq_getLast _ hne, Option.some.injEq] at hlast
            rw [← hlast]
            exact List.dropLast_append_getLast hne
          have hmult : (((shuffleList (d :: ds) rng).1.dropLast : List Card) : Multiset Card)
              + (([c] : List Card) : Multiset Card)
              = (((shuffleList (d :: ds) rng).1 : List Card) : Multiset Card) := by
            rw [Multiset.coe_add, hsplit]
          have hrec := ih (shuffleList (d :: ds) rng).1.dropLast [] (hand ++ [c])
            (shuffleList (d :: ds) rng).2
          simp only at hrec ⊢
          rw [hrec]
          have hco := shuffleList_coe (d :: ds) rng
          rw [← hco, ← hmult]
          simp only [← Multiset.coe_add]
          abel
    | cons e es =>
      simp only
      cases hlast : (e :: es).getLast? with
      | none =>
        rw [List.getLast?_eq_getLast _ (by simp)] at hlast
      | some c =>
        have hne : (e :: es) ≠ ([] : List Card) := by simp
        have hsplit : (e :: es).dropLast ++ [c] = e :: es := by
          rw [List.getLast?_eq_getLast _ hne, Option.some.injEq] at hlast
          rw [← hlast]
          exact List.dropLast_append_getLast hne
        have hmult : (((e :: es).dropLast : List Card) : Multiset Card)
            + (([c] : List Card) : Multiset Card)
            = ((e :: es : List Card) : Multiset Card) := by
          rw [Multiset.coe_add, hsplit]
        have hrec := ih (e :: es).dropLast discard (hand ++ [c]) rng
        simp only at hrec ⊢
        rw [hrec, ← hmult]
        simp only [← Multiset.coe_add]
        abel

/-- When the two piles together hold at least `count` cards, the deal loop
delivers exactly `count` cards into the hand. -/
theorem dealGo_hand_length (count : Nat) :
    ∀ (deck discard hand : List Card) (rng : List Nat),
      count ≤ deck.length + discard.length →
      (dealGo count deck discard hand rng).2.2.1.length
        = hand.length + count := by
  induction count with
  | zero => intro deck discard hand rng _; simp [dealGo]
  | succ n ih =>
    intro deck discard hand rng hsup
    simp only [dealGo]
    cases deck with
    | nil =>
      cases discard with
      | nil => simp at hsup
      | cons d ds =>
        simp only
        cases hlast : (shuffleList (d :: ds) rng).1.getLast? with
        | none =>
          have hne := shuffleList_ne_nil (d :: ds) rng (by simp)
          rw [List.getLast?_eq_getLast _ hne] at hlast
          exact absurd hlast (by simp)
        | some c =>
          have hlen := shuffleList_length (d :: ds) rng
          have hrec := ih (shuffleList (d :: ds) rng).1.dropLast [] (hand ++ [c])
            (shuffleList (d :: ds) rng).2
            (by
              rw [List.length_dropLast, hlen]
              simp only [List.length_cons, List.length_nil] at hsup ⊢
              omega)
          simp only at hrec ⊢
          rw [hrec]
          simp only [List.length_append, List.length_cons, List.length_nil]
          omega
    | cons e es =>
      simp only
      cases hlast : (e :: es).getLast? with
      | none =>
        rw [List.getLast?_eq_getLast _ (by simp)] at hlast
        exact absurd hlast (by simp)
      | some c =>
        have hrec := ih (e :: es).dropLast discard (hand ++ [c]) rng
          (by
            rw [List.length_dropLast]
            simp only [List.length_cons] at hsup ⊢
            omega)
        simp only at hrec ⊢
        rw [hrec]
        simp only [List.length_append, List.length_cons, List.length_nil]
        omega

/-- `lobby.players.forEach(player => { ... dealWhiteCards(lobby, player,
MAX_HAND_SIZE - player.hand.length) ... })` in `startNextRound` (and, with
hands reset first, in `startGame`): deals to each player in roster order,
threading the two white piles and the random stream. -/
def dealToAll (players : List Player) (deck discard : List Card)
    (rng : List Nat) : List Player × List Card × List Card × List Nat :=
  match players with
  | [] => ([], deck, discard, rng)
  | p :: rest =>
    let r := dealGo (MAX_HAND_SIZE - p.hand.length) deck discard p.hand rng
    let rr := dealToAll rest r.1 r.2.1 r.2.2.2
    ({ p with hand := r.2.2.1 } :: rr.1, rr.2)

/-- Dealing preserves roster length. -/
theorem dealToAll_length (players : List Player) :
    ∀ (deck discard : List Card) (rng : List Nat),
      (dealToAll players deck discard rng).1.length = players.length := by
  induction players with
  | nil => intro deck discard rng; rfl
  | cons p rest ih =>
    intro deck discard rng
    simp only [dealToAll, List.length_cons]
    rw [ih]

/-- Dealing changes only hands: every other player attribute is preserved
positionally. -/
theorem dealToAll_get? (players : List Player) :
    ∀ (deck discard : List Card) (rng : List Nat) (i : Nat) (p : Player),
      players[i]? = some p →
      ∃ hand', (dealToAll players deck discard rng).1[i]?
        = some { p with hand := hand' } := by
  induction players with
  | nil => intro _ _ _ i p h; simp at h
  | cons q rest ih =>
    intro deck discard rng i p h
    cases i with
    | zero =>
      simp only [List.getElem?_cons_zero, Option.some.injEq] at h
      subst h
      simp only [dealToAll, List.getElem?_cons_zero]
      exact ⟨_, rfl⟩
    | succ n =>
      simp only [List.getElem?_cons_succ] at h
      simp only [dealToAll, List.getElem?_cons_succ]
      exact ih _ _ _ n p h

/-- The total count of white cards needed to top every hand up to
`MAX_HAND_SIZE`. -/
def totalNeed (players : List Player) : Nat :=
  (players.map (fun p => MAX_HAND_SIZE - p.hand.length)).sum

/-- Count version of `dealGo` conservation: the two piles shrink by exactly
the number of cards delivered. -/
theorem dealGo_pile_length (count : Nat) (deck discard hand : List Card)
    (rng : List Nat) (hsup : count ≤ deck.length + discard.length) :
    let r := dealGo count deck discard hand rng
    r.1.length + r.2.1.length = deck.length + discard.length - count := by
  have hcoe := dealGo_coe count deck discard hand rng
  have hhand := dealGo_hand_length count deck discard hand rng hsup
  have hcard := congrArg Multiset.card hcoe
  simp only [Multiset.card_add, Multiset.coe_card] at hcard
  simp only
  omega

/-- When the white supply suffices for everyone, every hand ends at exactly
`MAX_HAND_SIZE` cards (provided no hand exceeded it before). -/
theorem dealToAll_topped (players : List Player) :
    ∀ (deck discard : List Card) (rng : List Nat),
      (∀ p ∈ players, p.hand.length ≤ MAX_HAND_SIZE) →
      totalNeed players ≤ deck.length + discard.length →
      ∀ q ∈ (dealToAll players deck discard rng).1,
        q.hand.length = MAX_HAND_SIZE := by
  induction players with
  | nil => intro _ _ _ _ _ q hq; simp [dealToAll] at hq
  | cons p rest ih =>
    intro deck discard rng hbound hsup q hq
    have hneed : MAX_HAND_SIZE - p.hand.length
        ≤ deck.length + discard.length := by
      have : MAX_HAND_SIZE - p.hand.length ≤ totalNeed (p :: rest) := by
        simp [totalNeed]
      omega
    have hhand := dealGo_hand_length (MAX_HAND_SIZE - p.hand.length)
      deck discard p.hand rng hneed
    have hpile := dealGo_pile_length (MAX_HAND_SIZE - p.hand.length)
      deck discard p.hand rng hneed
    simp only [dealToAll, List.mem_cons] at hq
    rcases hq with rfl | hq
    · simp only
      rw [hhand]
      have := hbound p (by simp)
      omega
    · apply ih _ _ _ (fun r hr => hbound r (by simp [hr])) _ q hq
      have : totalNeed (p :: rest) = (MAX_HAND_SIZE - p.hand.length)
          + totalNeed rest := by
        simp [totalNeed]
      omega

/-- Multiset conservation for dealing to the whole roster. -/
theorem dealToAll_coe (players : List Player) :
    ∀ (deck discard : List Card) (rng : List Nat),
      let r := dealToAll players deck discard rng
      ((r.2.1 : List Card) : Multiset Card) + (r.2.2.1 : Multiset Card)
        + (r.1.map (fun p => (p.hand : Multiset Card))).sum
      = (deck : Multiset Card) + (discard : Multiset Card)
        + (players.map (fun p => (p.hand : Multiset Card))).sum := by
  induction players with
  | nil => intro deck discard rng; rfl
  | cons p rest ih =>
    intro deck discard rng
    simp only [dealToAll, List.map_cons, List.sum_cons]
    have hg := dealGo_coe (MAX_HAND_SIZE - p.hand.length) deck discard p.hand rng
    have hih := ih (dealGo (MAX_HAND_SIZE - p.hand.length) deck discard p.hand rng).1
      (dealGo (MAX_HAND_SIZE - p.hand.length) deck discard p.hand rng).2.1
      (dealGo (MAX_HAND_SIZE - p.hand.length) deck discard p.hand rng).2.2.2
    simp only at hg hih ⊢
    have h1 : ∀ (A B S h₁ : Multiset Card),
        A + B + (h₁ + S) = A + B + S + h₁ := by intro A B S h₁; abel
    rw [h1, hih]
    have h2 : ∀ (g1 g21 Sr h₁ : Multiset Card),
        g1 + g21 + Sr + h₁ = g1 + g21 + h₁ + Sr := by intro g1 g21 Sr h₁; abel
    rw [h2, hg]
    abel

/-- In-place mutation of the player object returned by
`lobby.players.find(...)`: the first roster entry with the given id is
replaced, everything else is untouched. -/
def updatePlayerAt (players : List Player) (pid : String)
    (f : Player → Player) : List Player :=
  match players with
  | [] => []
  | p :: rest =>
    if p.id == pid then f p :: rest else p :: updatePlayerAt rest pid f

/-- The card-resolution loop of the `submitCards` handler:
`for (const cardId of cardIds) { const cardIndex = player.hand.findIndex(c =>
c.id === cardId); if (cardIndex === -1) ... return; submittedCardsObjects.push(
player.hand[cardIndex]); }` — `none` is the early `return` after the
`'Invalid card submitted.'` error. -/
def resolveCards (hand : List Card) : List String → Option (List Card)
  | [] => some []
  | cid :: rest =>
    match hand.find? (fun c => c.id == cid) with
    | none => none
    | some c => (resolveCards hand rest).map (fun cs => c :: cs)

/-- The czar-advance computation in `startNextRound`:
`const currentCzarIndex = lobby.players.findIndex(p => p.id === lobby.czarId);
lobby.czarId = lobby.players[(currentCzarIndex + 1) % lobby.players.length].id;`
(`findIndex` yields `-1` when the czar is no longer on the roster). -/
def nextCzarIdx (players : List Player) (czarId : Option String) : Nat :=
  let currentCzarIndex : Int :=
    match players.findIdx? (fun p => czarId == some p.id) with
    | some n => (n : Int)
    | none => -1
  ((currentCzarIndex + 1) % (players.length : Int)).toNat

/-- `startNextRound(lobbyCode)` (`src/server.js:253-288`): reset round state,
advance the czar, recycle/draw the prompt (ending the game if the black
supply is exhausted), discard the previous prompt, and top up every hand. -/
def resetSub (p : Player) : Player := { p with submittedCards := none }

def startNextRound (lobby : Lobby) (rng : List Nat) :
    Option (Lobby × List Msg) :=
  let players₀ := lobby.players.map resetSub
  let l₀ := { lobby with
    gameState := GameState.playing,
    roundSubmissions := [], roundWinnerInfo := none,
    players := players₀ }
  match players₀[nextCzarIdx players₀ lobby.czarId]? with
  | none => none
  | some nc =>
    let l₁ := { l₀ with czarId := some nc.id }
    if l₁.blackDeck = [] ∧ l₁.blackDiscard = [] then
      some ({ l₁ with gameState := GameState.gameOver },
            [Msg.gameOverMsg, Msg.lobbyUpdate])
    else
      let l₂ :=
        if l₁.blackDeck = [] then
          { l₁ with
            blackDeck := (shuffleList l₁.blackDiscard rng).1,
            blackDiscard := [] }
        else l₁
      let rng₁ := if l₁.blackDeck = [] then (shuffleList l₁.blackDiscard rng).2
        else rng
      let l₃ := { l₂ with blackDiscard := l₂.blackDiscard
        ++ (match l₂.currentBlackCard with | some c => [c] | none => []) }
      match l₃.blackDeck.getLast? with
      | none => none
      | some bc =>
        let l₄ := { l₃ with
          blackDeck := l₃.blackDeck.dropLast,
          currentBlackCard := some bc }
        let r := dealToAll l₄.players l₄.whiteDeck l₄.whiteDiscard rng₁
        some ({ l₄ with
                players := r.1, whiteDeck := r.2.1,
                whiteDiscard := r.2.2.1 },
              [Msg.lobbyUpdate])

/-- The `startGame` handler (`src/server.js:398-424`).  The card pools built
by the out-of-scope catalog collaborator (`globalCAHDeck.getPacks`) are
passed in as `whites`/`blacks`. -/
def startGame (lobby : Lobby) (senderId : String)
    (whites blacks : List Card) (rng : List Nat) :
    Option (Lobby × List Msg) :=
  if lobby.hostId ≠ senderId ∨ lobby.gameState ≠ GameState.waiting then
    some (lobby, [])
  else if lobby.players.length < 3 then
    some (lobby, [Msg.gameError senderId "Need at least 3 players to start."])
  else
    let w := shuffleList whites rng
    let l₁ := { lobby with
      whiteDeck := w.1, blackDeck := (shuffleList blacks w.2).1,
      whiteDiscard := [], blackDiscard := [] }
    let r := dealToAll (l₁.players.map (fun p => { p with score := 0, hand := [] }))
      l₁.whiteDeck l₁.whiteDiscard (shuffleList blacks w.2).2
    let l₂ := { l₁ with
      players := r.1, whiteDeck := r.2.1,
      whiteDiscard := r.2.2.1 }
    match l₂.players.head? with
    | none => none
    | some p0 => startNextRound { l₂ with czarId := some p0.id } r.2.2.2

/-- The `submitCards` handler (`src/server.js:426-463`). -/
def submitCards (lobby : Lobby) (senderId : String) (cardIds : List String)
    (rng : List Nat) : Option (Lobby × List Msg) :=
  match getLobbyPlayer lobby senderId with
  | none => some (lobby, [])
  | some player =>
    if lobby.gameState ≠ GameState.playing ∨ lobby.czarId = some player.id
        ∨ player.submittedCards.isSome then
      some (lobby, [])
    else
      match lobby.currentBlackCard with
      | none => none
      | some bc =>
        let pickCount := if bc.pick = 0 then 1 else bc.pick
        if cardIds.length ≠ pickCount then
          some (lobby, [Msg.gameError senderId
            ("Invalid submission. This card requires "
              ++ toString pickCount ++ " card(s).")])
        else
          match resolveCards player.hand cardIds with
          | none => some (lobby, [Msg.gameError senderId "Invalid card submitted."])
          | some objs =>
            let player' := { player with
              submittedCards := some objs,
              hand := player.hand.filter (fun c => ¬ cardIds.contains c.id) }
            let l₁ := { lobby with
              players := updatePlayerAt lobby.players player.id (fun _ => player') }
            let l₂ := { l₁ with roundSubmissions :=
              l₁.roundSubmissions ++ [⟨player.id, player.name, objs⟩] }
            let nonCzars := l₂.players.filter
              (fun p => ¬ lobby.czarId = some p.id)
            if l₂.roundSubmissions.length = nonCzars.length then
              some ({ l₂ with
                      gameState := GameState.judging,
                      roundSubmissions := (shuffleList l₂.roundSubmissions rng).1 },
                    [Msg.handUpdate senderId, Msg.lobbyUpdate, Msg.lobbyUpdate])
            else
              some (l₂, [Msg.handUpdate senderId, Msg.lobbyUpdate])

/-- The `selectWinner` handler (`src/server.js:465-499`).  `none` models the
uncaught `TypeError` of `winner.score++` when `getLobbyPlayer` returned
`undefined` (the winner already left the roster); the `roundOver` auto-advance
timer it schedules is modelled separately by `roundOverTimer`. -/
def selectWinner (lobby : Lobby) (senderId : String)
    (winningPlayerId : String) : Option (Lobby × List Msg) :=
  match getLobbyPlayer lobby senderId with
  | none => some (lobby, [])
  | some czar =>
    if lobby.gameState ≠ GameState.judging ∨ lobby.czarId ≠ some czar.id then
      some (lobby, [])
    else
      match lobby.roundSubmissions.find?
          (fun sub => sub.playerId == winningPlayerId) with
      | none => some (lobby, [])
      | some winningSubmission =>
        match getLobbyPlayer lobby winningPlayerId with
        | none => none
        | some winner =>
          match lobby.currentBlackCard with
          | none => none
          | some bc =>
            let l₁ := { lobby with
              players := updatePlayerAt lobby.players winningPlayerId
                (fun p => { p with score := p.score + 1 }),
              roundWinnerInfo := some ⟨winner.name,
                winningSubmission.cards.map (fun (c : Card) => c.text), bc.text⟩,
              whiteDiscard := lobby.whiteDiscard
                ++ lobby.roundSubmissions.flatMap (fun s => s.cards) }
            if lobby.settings.scoreToWin ≤ winner.score + 1 then
              some ({ l₁ with gameState := GameState.gameOver },
                    [Msg.gameOverMsg, Msg.lobbyUpdate])
            else
              some ({ l₁ with gameState := GameState.roundOver },
                    [Msg.lobbyUpdate])

/-- The `requestNextRound` handler (`src/server.js:501-506`). -/
def requestNextRound (lobby : Lobby) (senderId : String) (rng : List Nat) :
    Option (Lobby × List Msg) :=
  if (lobby.hostId = senderId ∨ lobby.gameState = GameState.roundOver)
      ∧ lobby.gameState ≠ GameState.gameOver then
    startNextRound lobby rng
  else
    some (lobby, [])

/-- The delayed auto-advance scheduled by `selectWinner` in `src/server.js`
(lines 493-497): at firing time it re-checks that the lobby still exists and
`lobbies[lobbyCode].gameState === 'roundOver'` (the additional
`!== 'gameOver'` conjunct is redundant) before calling `startNextRound`. -/
def roundOverTimer (lob : Option Lobby) (rng : List Nat) :
    Option (Option Lobby × List Msg) :=
  match lob with
  | none => some (none, [])
  | some l =>
    if l.gameState = GameState.roundOver ∧ l.gameState ≠ GameState.gameOver then
      match startNextRound l rng with
      | none => none
      | some (l', m) => some (some l', m)
    else
      some (some l, [])

/-- The same delayed action in the older revision of the server kept in the
repository (`src/unnamed/part_000`, lines 480-484): there the guard is only
`lobbies[lobbyCode] && lobbies[lobbyCode].gameState !== 'gameOver'`. -/
def roundOverTimerLegacy (lob : Option Lobby) (rng : List Nat) :
    Option (Option Lobby × List Msg) :=
  match lob with
  | none => some (none, [])
  | some l =>
    if l.gameState ≠ GameState.gameOver then
      match startNextRound l rng with
      | none => none
      | some (l', m) => some (some l', m)
    else
      some (some l, [])

/-- The per-lobby part of the `disconnect` handler
(`src/server.js:509-541`), for the lobby that contains the closing socket:
remove the member, tear the lobby down if it became empty (`none` in the
first component), otherwise migrate the host, and mid-game either force a new
round (czar left) or end the game (fewer than 3 members left). -/
def handleDisconnect (lobby : Lobby) (sockId : String) (rng : List Nat) :
    Option (Option Lobby × List Msg) :=
  match lobby.players.findIdx? (fun p => p.id == sockId) with
  | none => some (some lobby, [])
  | some playerIndex =>
    match lobby.players.eraseIdx playerIndex with
    | [] => some (none, [])
    | p0 :: rest =>
      let l₁ := { lobby with players := p0 :: rest }
      let l₂ := if l₁.hostId = sockId then { l₁ with hostId := p0.id } else l₁
      if l₂.gameState ≠ GameState.waiting ∧ l₂.gameState ≠ GameState.gameOver then
        if l₂.czarId = some sockId then
          match startNextRound l₂ rng with
          | none => none
          | some (l₃, m) =>
            some (some l₃, Msg.gameMessage :: m ++ [Msg.lobbyUpdate])
        else if (p0 :: rest).length < 3 ∧ l₂.gameState ≠ GameState.waiting then
          some (some { l₂ with gameState := GameState.gameOver },
                [Msg.gameOverMsg, Msg.lobbyUpdate])
        else
          some (some l₂, [Msg.lobbyUpdate])
      else
        some (some l₂, [Msg.lobbyUpdate])

/-- The white cards of a live session: draw pile, discard pile, all hands,
and all pending submissions, counted as a multiset.  (`player.submittedCards`
aliases the entries of `roundSubmissions` in the source, so it is not counted
separately.) -/
def allWhiteM (lobby : Lobby) : Multiset Card :=
  (lobby.whiteDeck : Multiset Card) + (lobby.whiteDiscard : Multiset Card)
    + (lobby.players.map (fun p => (p.hand : Multiset Card))).sum
    + (lobby.roundSubmissions.map (fun s => (s.cards : Multiset Card))).sum

/-- A white card for concrete scenarios. -/
def wc (n : Nat) : Card := ⟨"w" ++ toString n, "W" ++ toString n, 0⟩

/-- Black (prompt) cards for concrete scenarios, `pick = 1`. -/
def bCard1 : Card := ⟨"b1", "B1", 1⟩

def bCard2 : Card := ⟨"b2", "B2", 1⟩

def baseSettings : Settings := ⟨7, 10, [0], false⟩

/-- Four members, czar `p0`, mid-round: `p1` and `p2` have submitted, `p3`
has not. -/
def c1Lobby : Lobby :=
  { code := "AAAAA"
    players :=
      [⟨"p0", "P0", 0, [wc 1], none⟩,
       ⟨"p1", "P1", 0, [], some [wc 2]⟩,
       ⟨"p2", "P2", 0, [], some [wc 3]⟩,
       ⟨"p3", "P3", 0, [wc 4], none⟩]
    hostId := "p0"
    gameState := GameState.playing
    settings := baseSettings
    whiteDeck := []
    blackDeck := [bCard2]
    whiteDiscard := []
    blackDiscard := []
    currentBlackCard := some bCard1
    czarId := some "p0"
    roundSubmissions := [⟨"p1", "P1", [wc 2]⟩, ⟨"p2", "P2", [wc 3]⟩]
    roundWinnerInfo := none }

def c1After : Lobby :=
  match handleDisconnect c1Lobby "p3" [] with
  | some (some l, _) => l
  | _ => c1Lobby

/-- Claim C1, counterexample: in `c1Lobby` all non-czar members except `p3`
have submitted; when `p3` disconnects, three members remain (so no forced
game over), the handler leaves the state at `playing`, and the submission
count now equals the non-czar member count — the session is stuck in
`playing` with equal counts, every remaining non-czar having submitted, and
the claimed transition to `judging` never fired. -/
theorem C1_counterexample :
    (handleDisconnect c1Lobby "p3" []).isSome = true
    ∧ c1After.gameState = GameState.playing
    ∧ c1After.roundSubmissions.length
      = (c1After.players.filter (fun p => ¬ c1After.czarId = some p.id)).length
    ∧ c1After.roundSubmissions.length = 2
    ∧ c1After.players.all
      (fun p => c1After.czarId = some p.id ∨ p.submittedCards.isSome) = true := by
  decide

/-- Three members, czar and host `p0`, in `judging` with both submissions in. -/
def c9Lobby : Lobby :=
  { code := "BBBBB"
    players :=
      [⟨"p0", "P0", 0, [wc 1], none⟩,
       ⟨"p1", "P1", 0, [], some [wc 2]⟩,
       ⟨"p2", "P2", 0, [], some [wc 3]⟩]
    hostId := "p0"
    gameState := GameState.judging
    settings := baseSettings
    whiteDeck := []
    blackDeck := [bCard2]
    whiteDiscard := []
    blackDiscard := []
    currentBlackCard := some bCard1
    czarId := some "p0"
    roundSubmissions := [⟨"p1", "P1", [wc 2]⟩, ⟨"p2", "P2", [wc 3]⟩]
    roundWinnerInfo := none }

/-- Claim C9, counterexample: the host's `requestNextRound` is accepted in
state `judging` (its guard only requires host identity and a state other than
`gameOver`) and calls `startNextRound`, moving the session from `judging`
straight back to `playing` with no winner selection — a transition the
claimed five-state machine forbids. -/
def c9After : Lobby :=
  match requestNextRound c9Lobby "p0" [] with
  | some (l, _) => l
  | none => c9Lobby

theorem C9_counterexample :
    c9Lobby.gameState = GameState.judging
    ∧ (requestNextRound c9Lobby "p0" []).isSome = true
    ∧ c9After.gameState = GameState.playing := by
  decide

/-- Three members, czar `p0`, in `judging`, with a recorded submission from a
player `p9` who is no longer on the roster. -/
def c3Lobby : Lobby :=
  { code := "CCCCC"
    players :=
      [⟨"p0", "P0", 0, [wc 1], none⟩,
       ⟨"p1", "P1", 0, [], some [wc 2]⟩,
       ⟨"p2", "P2", 0, [], some [wc 3]⟩]
    hostId := "p0"
    gameState := GameState.judging
    settings := baseSettings
    whiteDeck := []
    blackDeck := [bCard2]
    whiteDiscard := []
    blackDiscard := []
    currentBlackCard := some bCard1
    czarId := some "p0"
    roundSubmissions :=
      [⟨"p1", "P1", [wc 2]⟩, ⟨"p9", "P9", [wc 5]⟩, ⟨"p2", "P2", [wc 3]⟩]
    roundWinnerInfo := none }

/-- Claim C3, counterexample: every acceptance condition named by the claim
holds (state `judging`, sender is the designated czar, a submission with the
given `winningPlayerId` exists), yet the handler does not perform any of the
claimed effects: `getLobbyPlayer` finds no such member and `winner.score++`
throws (`none`), so no score changes, nothing is discarded and no transition
happens. -/
theorem C3_counterexample :
    c3Lobby.gameState = GameState.judging
    ∧ c3Lobby.czarId = some "p0"
    ∧ (getLobbyPlayer c3Lobby "p0").isSome = true
    ∧ (c3Lobby.roundSubmissions.find?
        (fun sub => sub.playerId == "p9")).isSome = true
    ∧ getLobbyPlayer c3Lobby "p9" = none
    ∧ selectWinner c3Lobby "p0" "p9" = none := by
  decide

/-- Four members, czar `p0`, in `judging` with all three submissions in. -/
def c10Lobby : Lobby :=
  { code := "DDDDD"
    players :=
      [⟨"p0", "P0", 0, [wc 1], none⟩,
       ⟨"p1", "P1", 0, [], some [wc 2]⟩,
       ⟨"p2", "P2", 0, [], some [wc 3]⟩,
       ⟨"p3", "P3", 0, [], some [wc 4]⟩]
    hostId := "p0"
    gameState := GameState.judging
    settings := baseSettings
    whiteDeck := []
    blackDeck := [bCard2]
    whiteDiscard := []
    blackDiscard := []
    currentBlackCard := some bCard1
    czarId := some "p0"
    roundSubmissions :=
      [⟨"p1", "P1", [wc 2]⟩, ⟨"p2", "P2", [wc 3]⟩, ⟨"p3", "P3", [wc 4]⟩]
    roundWinnerInfo := none }

def c10After : Lobby :=
  match handleDisconnect c10Lobby "p3" [] with
  | some (some l, _) => l
  | _ => c10Lobby

/-- Claim C10: evaluation of the code at the failing input.  After `p3`
(a non-czar who has submitted) disconnects during `judging`, the session is
still in `judging` and still holds `p3`'s submission, but `p3` is no longer a
member; the czar's `selectWinner` for `p3` then passes every guard and
dereferences a missing player (`winner.score++` on `undefined`), modelled by
`none`. -/
theorem C10_thm :
    c10After.gameState = GameState.judging
    ∧ (c10After.roundSubmissions.find?
        (fun sub => sub.playerId == "p3")).isSome = true
    ∧ getLobbyPlayer c10After "p3" = none
    ∧ c10After.czarId = some "p0"
    ∧ selectWinner c10After "p0" "p3" = none := by
  decide

/-- Three members in `waiting`, host `p0`, about to start the game. -/
def c4Lobby : Lobby :=
  { code := "EEEEE"
    players :=
      [⟨"p0", "P0", 0, [], none⟩,
       ⟨"p1", "P1", 0, [], none⟩,
       ⟨"p2", "P2", 0, [], none⟩]
    hostId := "p0"
    gameState := GameState.waiting
    settings := baseSettings
    whiteDeck := []
    blackDeck := []
    whiteDiscard := []
    blackDiscard := []
    currentBlackCard := none
    czarId := none
    roundSubmissions := []
    roundWinnerInfo := none }

def c4After : Lobby :=
  match startGame c4Lobby "p0" [] [bCard1] [] with
  | some (l, _) => l
  | none => c4Lobby

/-- Claim C4, counterexample: a valid `startGame` on a three-member roster
`[p0, p1, p2]` produces a first `playing` round whose czar is `p1`, the
second member — not `p0`, the first member (the handler seeds the czar with
`players[0]` but `startNextRound` immediately advances it). -/
theorem C4_counterexample :
    (c4Lobby.players.map (fun p => p.id)) = ["p0", "p1", "p2"]
    ∧ c4After.gameState = GameState.playing
    ∧ c4After.czarId = some "p1"
    ∧ c4After.czarId ≠ some "p0" := by
  decide

/-- Three members, czar and host `p0`, mid-round (`playing`) with one
submission (card `wc 9`) already recorded from `p1`. -/
def c5Lobby : Lobby :=
  { code := "FFFFF"
    players :=
      [⟨"p0", "P0", 0, [wc 1], none⟩,
       ⟨"p1", "P1", 0, [], some [wc 9]⟩,
       ⟨"p2", "P2", 0, [wc 2], none⟩]
    hostId := "p0"
    gameState := GameState.playing
    settings := baseSettings
    whiteDeck := []
    blackDeck := [bCard2]
    whiteDiscard := []
    blackDiscard := []
    currentBlackCard := some bCard1
    czarId := some "p0"
    roundSubmissions := [⟨"p1", "P1", [wc 9]⟩]
    roundWinnerInfo := none }

def c5After : Lobby :=
  match requestNextRound c5Lobby "p0" [] with
  | some (l, _) => l
  | none => c5Lobby

/-- Claim C5, counterexample: the host forces `requestNextRound` while one
submission is pending; `startNextRound` clears the submission list without
discarding its cards, and the submitted card `wc 9` vanishes from the union
of draw pile, discard pile, hands and submissions — it is lost, and the
white discard pile stays empty rather than receiving it. -/
theorem C5_counterexample :
    wc 9 ∈ allWhiteM c5Lobby
    ∧ c5After.gameState = GameState.playing
    ∧ c5After.whiteDiscard = []
    ∧ c5After.roundSubmissions = []
    ∧ wc 9 ∉ allWhiteM c5After := by
  decide

/-- Four members `[p0, p1, p2, p3]`, czar `p1` (a middle member), host `p0`,
mid-round. -/
def c7Lobby : Lobby :=
  { code := "GGGGG"
    players :=
      [⟨"p0", "P0", 0, [wc 1], none⟩,
       ⟨"p1", "P1", 0, [wc 2], none⟩,
       ⟨"p2", "P2", 0, [wc 3], none⟩,
       ⟨"p3", "P3", 0, [wc 4], none⟩]
    hostId := "p0"
    gameState := GameState.playing
    settings := baseSettings
    whiteDeck := []
    blackDeck := [bCard2]
    whiteDiscard := []
    blackDiscard := []
    currentBlackCard := some bCard1
    czarId := some "p1"
    roundSubmissions := []
    roundWinnerInfo := none }

def c7After : Lobby :=
  match handleDisconnect c7Lobby "p1" [] with
  | some (some l, _) => l
  | _ => c7Lobby

/-- Claim C7, counterexample: the czar `p1` disconnects from the roster
`[p0, p1, p2, p3]`.  The next remaining member in roster order after the
departed czar is `p2`, but the new round's czar is `p0`: with the czar
already removed, `findIndex` yields `-1` and `(-1 + 1) % length` selects the
first member of the remaining roster. -/
theorem C7_counterexample :
    (c7Lobby.players.map (fun p => p.id)) = ["p0", "p1", "p2", "p3"]
    ∧ c7Lobby.czarId = some "p1"
    ∧ c7After.gameState = GameState.playing
    ∧ (c7After.players.map (fun p => p.id)) = ["p0", "p2", "p3"]
    ∧ c7After.czarId = some "p0"
    ∧ c7After.czarId ≠ some "p2" := by
  decide

def c8After : Lobby :=
  match roundOverTimerLegacy (some c5Lobby) [] with
  | some (some l, _) => l
  | _ => c5Lobby

/-- Claim C8, counterexample: in the older revision of the server
(`src/unnamed/part_000`) the delayed action only re-checks
`gameState !== 'gameOver'`.  Fired against a session that a manual
`requestNextRound` has already moved back to `playing`, it is not a no-op:
it calls `startNextRound` again and mutates the session (here the pending
submission list is wiped and a fresh prompt is drawn). -/
theorem C8_counterexample :
    c5Lobby.gameState = GameState.playing
    ∧ (roundOverTimerLegacy (some c5Lobby) []).isSome = true
    ∧ c8After ≠ c5Lobby
    ∧ c8After.roundSubmissions = []
    ∧ c5Lobby.roundSubmissions ≠ [] := by
  decide

/-- Claim C8 (amended): in the current server (`src/server.js`) the delayed
auto-advance re-validates at firing time that the session still exists and is
still in `roundOver`, and is a no-op otherwise; in the older revision of the
server kept in the repository the guard only re-validates that the state is
not `gameOver`, so a timer made stale by a manual `requestNextRound` does
mutate the session (see the counterexample). -/
theorem C8_thm :
    (∀ rng : List Nat, roundOverTimer none rng = some (none, []))
    ∧ (∀ (rng : List Nat) (l : Lobby), l.gameState ≠ GameState.roundOver →
        roundOverTimer (some l) rng = some (some l, [])) := by
  constructor
  · intro rng; rfl
  · intro rng l h
    simp [roundOverTimer, h]

theorem C8_witness :
    roundOverTimer none [] = some (none, [])
    ∧ roundOverTimer (some c9Lobby) [] = some (some c9Lobby, []) :=
  ⟨C8_thm.1 [], C8_thm.2 [] c9Lobby (by decide)⟩

/-- Claim C6: a reshuffle (which the code performs exactly when the draw pile
is empty and the discard pile is not: `dealWhiteCards` for the white supply,
`startNextRound` for the black supply) moves the entire discard pile into the
draw pile, leaves the discard pile empty causing no card to appear or
disappear (the multiset across the two piles is invariant), and yields a
non-empty draw pile; moreover the whole deal loop conserves the multiset of
cards across draw pile, discard pile and the receiving hand. -/
theorem C6_thm :
    (∀ (deck discard : List Card) (rng : List Nat),
      deck = [] → discard ≠ [] →
      ((shuffleList discard rng).1 : Multiset Card)
          + (([] : List Card) : Multiset Card)
        = (deck : Multiset Card) + (discard : Multiset Card)
      ∧ (shuffleList discard rng).1 ≠ [])
    ∧ (∀ (count : Nat) (deck discard hand : List Card) (rng : List Nat),
        ((dealGo count deck discard hand rng).1 : Multiset Card)
          + ((dealGo count deck discard hand rng).2.1 : Multiset Card)
          + ((dealGo count deck discard hand rng).2.2.1 : Multiset Card)
        = (deck : Multiset Card) + (discard : Multiset Card)
          + (hand : Multiset Card)) := by
  constructor
  · intro deck discard rng hdeck hdis
    subst hdeck
    refine ⟨?_, shuffleList_ne_nil discard rng hdis⟩
    rw [shuffleList_coe]
    simp
  · intro count deck discard hand rng
    exact dealGo_coe count deck discard hand rng

theorem C6_witness :
    (((shuffleList [wc 1, wc 2] []).1 : List Card) : Multiset Card)
        + (([] : List Card) : Multiset Card)
      = (([] : List Card) : Multiset Card)
        + (([wc 1, wc 2] : List Card) : Multiset Card)
    ∧ (shuffleList [wc 1, wc 2] []).1 ≠ [] :=
  C6_thm.1 [] [wc 1, wc 2] [] rfl (by decide)

theorem find?_updatePlayerAt_self (players : List Player) (pid : String)
    (f : Player → Player) (hf : ∀ p, p.id = pid → (f p).id = p.id)
    (w : Player) (hw : players.find? (fun p => p.id == pid) = some w) :
    (updatePlayerAt players pid f).find? (fun p => p.id == pid)
      = some (f w) := by
  induction players with
  | nil => simp at hw
  | cons q rest ih =>
    by_cases hq : q.id = pid
    · rw [List.find?_cons_of_pos _ (by simpa using hq)] at hw
      injection hw with hw
      subst hw
      simp only [updatePlayerAt, beq_iff_eq, if_pos hq]
      rw [List.find?_cons_of_pos]
      simp [hf q hq, hq]
    · rw [List.find?_cons_of_neg _ (by simpa using hq)] at hw
      simp only [updatePlayerAt, beq_iff_eq, if_neg hq]
      rw [List.find?_cons_of_neg _ (by simpa using hq)]
      exact ih hw

theorem find?_updatePlayerAt_ne (players : List Player) (pid : String)
    (f : Player → Player) (hf : ∀ p, p.id = pid → (f p).id = p.id)
    (pid' : String) (hne : pid' ≠ pid) :
    (updatePlayerAt players pid f).find? (fun p => p.id == pid')
      = players.find? (fun p => p.id == pid') := by
  induction players with
  | nil => rfl
  | cons q rest ih =>
    by_cases hq : q.id = pid
    · simp only [updatePlayerAt, beq_iff_eq, if_pos hq]
      rw [List.find?_cons_of_neg _ (by simp [hf q hq, hq]; exact (Ne.symm hne)),
        List.find?_cons_of_neg _ (by simp [hq]; exact (Ne.symm hne))]
    · simp only [updatePlayerAt, beq_iff_eq, if_neg hq]
      by_cases hq' : q.id = pid'
      · rw [List.find?_cons_of_pos _ (by simpa using hq'),
          List.find?_cons_of_pos _ (by simpa using hq')]
      · rw [List.find?_cons_of_neg _ (by simpa using hq'),
          List.find?_cons_of_neg _ (by simpa using hq')]
        exact ih

theorem updatePlayerAt_map_id (players : List Player) (pid : String)
    (f : Player → Player) (hf : ∀ p, p.id = pid → (f p).id = p.id) :
    (updatePlayerAt players pid f).map (fun p => p.id)
      = players.map (fun p => p.id) := by
  induction players with
  | nil => rfl
  | cons q rest ih =>
    by_cases hq : q.id = pid
    · simp only [updatePlayerAt, beq_iff_eq, if_pos hq, List.map_cons]
      rw [hf q hq]
    · simp only [updatePlayerAt, beq_iff_eq, if_neg hq, List.map_cons]
      rw [ih]

theorem countP_id_eq (ps qs : List Player)
    (h : ps.map (fun p => p.id) = qs.map (fun p => p.id))
    (g : String → Bool) :
    ps.countP (fun p => g p.id) = qs.countP (fun p => g p.id) := by
  have h1 : ps.countP (fun p => g p.id)
      = (ps.map (fun p => p.id)).countP g := (List.countP_map g _ ps).symm
  have h2 : qs.countP (fun p => g p.id)
      = (qs.map (fun p => p.id)).countP g := (List.countP_map g _ qs).symm
  rw [h1, h2, h]

theorem resolveCards_none_iff (hand : List Card) (ids : List String) :
    resolveCards hand ids = none
      ↔ ∃ cid ∈ ids, hand.find? (fun c => c.id == cid) = none := by
  induction ids with
  | nil => simp [resolveCards]
  | cons cid rest ih =>
    simp only [resolveCards]
    cases hfind : hand.find? (fun c => c.id == cid) with
    | none =>
      simp only [List.mem_cons]
      constructor
      · intro _; exact ⟨cid, Or.inl rfl, hfind⟩
      · intro _; trivial
    | some c =>
      simp only [Option.map_eq_none', ih, List.mem_cons]
      constructor
      · rintro ⟨x, hx, hfx⟩; exact ⟨x, Or.inr hx, hfx⟩
      · rintro ⟨x, hx | hx, hfx⟩
        · subst hx; rw [hfind] at hfx; exact Option.noConfusion hfx
        · exact ⟨x, hx, hfx⟩

/-- Claim C2: in state `playing`, a not-yet-submitted non-czar member's
`submitCards` with a wrong card count, or with an id that does not resolve to
a card in their hand, is rejected: a `gameError` goes only to the acting
connection and the returned session is exactly the incoming one — hand,
submission slot, submission list, piles and game-state untouched.  The third
conjunct ties the embedded resolution loop to the claim's wording: it fails
precisely when some id in `cardIds` finds no card in the player's hand. -/
theorem C2_thm (lobby : Lobby) (senderId : String) (cardIds : List String)
    (rng : List Nat) (player : Player) (bc : Card)
    (hplayer : getLobbyPlayer lobby senderId = some player)
    (hstate : lobby.gameState = GameState.playing)
    (hczar : lobby.czarId ≠ some player.id)
    (hnosub : player.submittedCards = none)
    (hbc : lobby.currentBlackCard = some bc) :
    (cardIds.length ≠ (if bc.pick = 0 then 1 else bc.pick) →
      submitCards lobby senderId cardIds rng
        = some (lobby, [Msg.gameError senderId
            ("Invalid submission. This card requires "
              ++ toString (if bc.pick = 0 then 1 else bc.pick)
              ++ " card(s).")]))
    ∧ (cardIds.length = (if bc.pick = 0 then 1 else bc.pick) →
        resolveCards player.hand cardIds = none →
        submitCards lobby senderId cardIds rng
          = some (lobby, [Msg.gameError senderId "Invalid card submitted."]))
    ∧ (resolveCards player.hand cardIds = none
        ↔ ∃ cid ∈ cardIds, player.hand.find? (fun c => c.id == cid) = none) := by
  have hguard : ¬(lobby.gameState ≠ GameState.playing
      ∨ lobby.czarId = some player.id
      ∨ player.submittedCards.isSome = true) := by
    simp [hstate, hczar, hnosub]
  refine ⟨?_, ?_, resolveCards_none_iff _ _⟩
  · intro hlen
    simp only [submitCards, hplayer, hbc]
    rw [if_neg hguard, if_pos hlen]
  · intro hlen hres
    simp only [submitCards, hplayer, hbc]
    rw [if_neg hguard, if_neg (by simpa using hlen), hres]

theorem C2_witness :
    submitCards c1Lobby "p3" ["w4", "w1"] []
      = some (c1Lobby, [Msg.gameError "p3"
          "Invalid submission. This card requires 1 card(s)."]) := by
  have h := (C2_thm c1Lobby "p3" ["w4", "w1"] []
    ⟨"p3", "P3", 0, [wc 4], none⟩ bCard1
    (by decide) (by decide) (by decide) (by decide) (by decide)).1 (by decide)
  simpa using h

/-- Claim C3 (amended): for every `selectWinner` accepted in state `judging`
from the designated czar for a `winningPlayerId` whose submission exists
*and who is still a member of the roster*, the winner's score increases by
exactly 1 (every other member is untouched), all submitted cards of the round
are appended to the white discard pile, a winner snapshot is recorded, and
the session moves to `gameOver` precisely when the new score reaches the
`scoreToWin` threshold and to `roundOver` otherwise.  (Without the membership
condition the handler crashes; see the counterexample and claim C10.) -/
theorem C3_thm (lobby : Lobby) (senderId winningPlayerId : String)
    (czar : Player) (sub : Submission) (winner : Player) (bc : Card)
    (hczar : getLobbyPlayer lobby senderId = some czar)
    (hstate : lobby.gameState = GameState.judging)
    (hisczar : lobby.czarId = some czar.id)
    (hsub : lobby.roundSubmissions.find?
      (fun s => s.playerId == winningPlayerId) = some sub)
    (hwin : getLobbyPlayer lobby winningPlayerId = some winner)
    (hbc : lobby.currentBlackCard = some bc) :
    ∃ l' m, selectWinner lobby senderId winningPlayerId = some (l', m)
      ∧ getLobbyPlayer l' winningPlayerId
        = some { winner with score := winner.score + 1 }
      ∧ (∀ pid, pid ≠ winningPlayerId →
          getLobbyPlayer l' pid = getLobbyPlayer lobby pid)
      ∧ l'.whiteDiscard = lobby.whiteDiscard
          ++ lobby.roundSubmissions.flatMap (fun s => s.cards)
      ∧ l'.roundWinnerInfo
        = some ⟨winner.name, sub.cards.map (fun c => c.text), bc.text⟩
      ∧ (l'.gameState = GameState.gameOver
          ↔ lobby.settings.scoreToWin ≤ winner.score + 1)
      ∧ (l'.gameState = GameState.roundOver
          ↔ winner.score + 1 < lobby.settings.scoreToWin) := by
  have hguard : ¬(lobby.gameState ≠ GameState.judging
      ∨ lobby.czarId ≠ some czar.id) := by
    simp [hstate, hisczar]
  have hf : ∀ p : Player, p.id = winningPlayerId →
      ({ p with score := p.score + 1 } : Player).id = p.id := fun _ _ => rfl
  have hself := find?_updatePlayerAt_self lobby.players winningPlayerId
    (fun p => { p with score := p.score + 1 }) hf winner hwin
  have hother := fun pid (hne : pid ≠ winningPlayerId) =>
    find?_updatePlayerAt_ne lobby.players winningPlayerId
      (fun p => { p with score := p.score + 1 }) hf pid hne
  by_cases hwinning : lobby.settings.scoreToWin ≤ winner.score + 1
  · refine ⟨{ lobby with
        players := updatePlayerAt lobby.players winningPlayerId
          (fun p => { p with score := p.score + 1 }),
        roundWinnerInfo := some ⟨winner.name,
          sub.cards.map (fun (c : Card) => c.text), bc.text⟩,
        whiteDiscard := lobby.whiteDiscard
          ++ lobby.roundSubmissions.flatMap (fun s => s.cards),
        gameState := GameState.gameOver },
      [Msg.gameOverMsg, Msg.lobbyUpdate], ?_, ?_, ?_, ?_, ?_, ?_, ?_⟩
    · simp only [selectWinner, hczar, hsub, hwin, hbc]
      rw [if_neg hguard, if_pos hwinning]
    · exact hself
    · intro pid hne; exact hother pid hne
    · rfl
    · rfl
    · simp [hwinning]
    · constructor
      · intro h; exact absurd h (by simp)
      · intro h; omega
  · refine ⟨{ lobby with
        players := updatePlayerAt lobby.players winningPlayerId
          (fun p => { p with score := p.score + 1 }),
        roundWinnerInfo := some ⟨winner.name,
          sub.cards.map (fun (c : Card) => c.text), bc.text⟩,
        whiteDiscard := lobby.whiteDiscard
          ++ lobby.roundSubmissions.flatMap (fun s => s.cards),
        gameState := GameState.roundOver },
      [Msg.lobbyUpdate], ?_, ?_, ?_, ?_, ?_, ?_, ?_⟩
    · simp only [selectWinner, hczar, hsub, hwin, hbc]
      rw [if_neg hguard, if_neg hwinning]
    · exact hself
    · intro pid hne; exact hother pid hne
    · rfl
    · rfl
    · constructor
      · intro h; exact absurd h (by simp)
      · intro h; exact absurd h hwinning
    · simp only [true_iff]
      omega

theorem C3_witness :
    ∃ l' m, selectWinner c10Lobby "p0" "p1" = some (l', m)
      ∧ getLobbyPlayer l' "p1" = some ⟨"p1", "P1", 1, [], some [wc 2]⟩
      ∧ (∀ pid, pid ≠ "p1" →
          getLobbyPlayer l' pid = getLobbyPlayer c10Lobby pid)
      ∧ l'.whiteDiscard = c10Lobby.whiteDiscard
          ++ c10Lobby.roundSubmissions.flatMap (fun s => s.cards)
      ∧ l'.roundWinnerInfo = some ⟨"P1", [(wc 2).text], bCard1.text⟩
      ∧ (l'.gameState = GameState.gameOver
          ↔ c10Lobby.settings.scoreToWin ≤ 1)
      ∧ (l'.gameState = GameState.roundOver
          ↔ 1 < c10Lobby.settings.scoreToWin) :=
  C3_thm c10Lobby "p0" "p1" ⟨"p0", "P0", 0, [wc 1], none⟩
    ⟨"p1", "P1", [wc 2]⟩ ⟨"p1", "P1", 0, [], some [wc 2]⟩ bCard1
    (by decide) (by decide) (by decide) (by decide) (by decide) (by decide)

/-- Claim C1 (amended): a member who has already submitted is turned away
without any effect, and an accepted submission moves the session to `judging`
exactly when the grown submission count equals the non-czar member count
(shuffling the submission list), staying in `playing` otherwise.  However the
transition is driven only by the `submitCards` handler: a not-yet-submitted
non-czar member disconnecting after all others have submitted leaves the
session in `playing` with the counts equal (see the counterexample), so the
equality of counts does not by itself force `judging`. -/
theorem C1_thm :
    (∀ (lobby : Lobby) (senderId : String) (cardIds : List String)
        (rng : List Nat) (p : Player),
      getLobbyPlayer lobby senderId = some p →
      p.submittedCards.isSome = true →
      submitCards lobby senderId cardIds rng = some (lobby, []))
    ∧ (∀ (lobby : Lobby) (senderId : String) (cardIds : List String)
        (rng : List Nat) (player : Player) (bc : Card) (objs : List Card),
      getLobbyPlayer lobby senderId = some player →
      lobby.gameState = GameState.playing →
      lobby.czarId ≠ some player.id →
      player.submittedCards = none →
      lobby.currentBlackCard = some bc →
      cardIds.length = (if bc.pick = 0 then 1 else bc.pick) →
      resolveCards player.hand cardIds = some objs →
      ∃ l' m, submitCards lobby senderId cardIds rng = some (l', m)
        ∧ (l'.gameState = GameState.judging
            ↔ lobby.roundSubmissions.length + 1
              = (lobby.players.filter
                  (fun q => ¬ lobby.czarId = some q.id)).length)
        ∧ (l'.gameState = GameState.judging ∨ l'.gameState = GameState.playing)
        ∧ ((l'.roundSubmissions : List Submission) : Multiset Submission)
          = ((lobby.roundSubmissions
              ++ [⟨player.id, player.name, objs⟩] : List Submission)
                : Multiset Submission)) := by
  constructor
  · intro lobby senderId cardIds rng p hp hsub
    simp only [submitCards, hp]
    rw [if_pos (Or.inr (Or.inr hsub))]
  · intro lobby senderId cardIds rng player bc objs
      hplayer hstate hczar hnosub hbc hlen hres
    have hguard : ¬(lobby.gameState ≠ GameState.playing
        ∨ lobby.czarId = some player.id
        ∨ player.submittedCards.isSome = true) := by
      simp [hstate, hczar, hnosub]
    have hf : ∀ p : Player, p.id = player.id →
        ((fun _ => { player with
            submittedCards := some objs,
            hand := player.hand.filter
              (fun c => ¬ cardIds.contains c.id) }) p : Player).id = p.id := by
      intro p hp
      simp [hp]
    have hmap := updatePlayerAt_map_id lobby.players player.id _ hf
    have hcnt := countP_id_eq _ _ hmap
      (fun s => decide (¬ lobby.czarId = some s))
    have hfiltlen :
        ((updatePlayerAt lobby.players player.id
            (fun _ => { player with
              submittedCards := some objs,
              hand := player.hand.filter
                (fun c => ¬ cardIds.contains c.id) })).filter
          (fun q => ¬ lobby.czarId = some q.id)).length
        = (lobby.players.filter
            (fun q => ¬ lobby.czarId = some q.id)).length := by
      rw [← List.countP_eq_length_filter, ← List.countP_eq_length_filter]
      exact hcnt
    simp only [submitCards, hplayer, hbc]
    rw [if_neg hguard, if_neg (by simpa using hlen), hres]
    simp only
    split
    · rename_i hcond
      refine ⟨_, _, rfl, ?_, ?_, ?_⟩
      · simp only [List.length_append, List.length_cons, List.length_nil,
          hfiltlen] at hcond
        constructor
        · intro _; omega
        · intro _; rfl
      · exact Or.inl rfl
      · exact shuffleList_coe _ rng
    · rename_i hcond
      refine ⟨_, _, rfl, ?_, ?_, ?_⟩
      · simp only [List.length_append, List.length_cons, List.length_nil,
          hfiltlen] at hcond
        simp only [hstate]
        constructor
        · intro h; exact absurd h (by simp)
        · intro h; omega
      · exact Or.inr hstate
      · rfl

theorem C1_witness :
    (submitCards c1Lobby "p1" ["w9"] [] = some (c1Lobby, []))
    ∧ (∃ l' m, submitCards c1Lobby "p3" ["w4"] [] = some (l', m)
        ∧ (l'.gameState = GameState.judging
            ↔ c1Lobby.roundSubmissions.length + 1
              = (c1Lobby.players.filter
                  (fun q => ¬ c1Lobby.czarId = some q.id)).length)
        ∧ (l'.gameState = GameState.judging ∨ l'.gameState = GameState.playing)
        ∧ ((l'.roundSubmissions : List Submission) : Multiset Submission)
          = ((c1Lobby.roundSubmissions
              ++ [⟨"p3", "P3", [wc 4]⟩] : List Submission)
                : Multiset Submission)) :=
  ⟨C1_thm.1 c1Lobby "p1" ["w9"] [] ⟨"p1", "P1", 0, [], some [wc 2]⟩
      (by decide) (by decide),
   C1_thm.2 c1Lobby "p3" ["w4"] [] ⟨"p3", "P3", 0, [wc 4], none⟩ bCard1 [wc 4]
      (by decide) (by decide) (by decide) (by decide) (by decide) (by decide)
      (by decide)⟩

theorem startNextRound_gameState (lobby : Lobby) (rng : List Nat)
    (l' : Lobby) (m : List Msg)
    (h : startNextRound lobby rng = some (l', m)) :
    l'.gameState = GameState.playing ∨ l'.gameState = GameState.gameOver := by
  simp only [startNextRound] at h
  split at h
  · exact absurd h (by simp)
  · split at h
    · simp only [Option.some.injEq, Prod.mk.injEq] at h
      obtain ⟨h1, -⟩ := h
      subst h1
      exact Or.inr rfl
    · split at h
      · exact absurd h (by simp)
      · simp only [Option.some.injEq, Prod.mk.injEq] at h
        obtain ⟨h1, -⟩ := h
        subst h1
        left
        split
        · rfl
        · rfl

/-- Claim C9 (amended): every game-state change made by a handler lands in
the allowed set — `submitCards` only moves `playing → judging`;
`selectWinner` only moves `judging → roundOver | gameOver`; `startGame` only
moves `waiting → playing | gameOver`; `requestNextRound` moves any
non-`gameOver` state (including `waiting` and `judging`, which the claimed
five-state machine forbids) to `playing | gameOver`; the disconnect handler
moves only mid-game states (`≠ waiting`, `≠ gameOver`) to
`playing | gameOver`; the `roundOver` timer moves only `roundOver` to
`playing | gameOver`.  In particular no handler changes the state of a
session already in `gameOver`. -/
theorem C9_thm :
    (∀ (l : Lobby) (s : String) (ids : List String) (rng : List Nat)
        (l' : Lobby) (m : List Msg),
      submitCards l s ids rng = some (l', m) →
      l'.gameState ≠ l.gameState →
      l.gameState = GameState.playing ∧ l'.gameState = GameState.judging)
    ∧ (∀ (l : Lobby) (s w : String) (l' : Lobby) (m : List Msg),
      selectWinner l s w = some (l', m) →
      l'.gameState ≠ l.gameState →
      l.gameState = GameState.judging
        ∧ (l'.gameState = GameState.roundOver
            ∨ l'.gameState = GameState.gameOver))
    ∧ (∀ (l : Lobby) (s : String) (ws bs : List Card) (rng : List Nat)
        (l' : Lobby) (m : List Msg),
      startGame l s ws bs rng = some (l', m) →
      l'.gameState ≠ l.gameState →
      l.gameState = GameState.waiting
        ∧ (l'.gameState = GameState.playing
            ∨ l'.gameState = GameState.gameOver))
    ∧ (∀ (l : Lobby) (s : String) (rng : List Nat) (l' : Lobby) (m : List Msg),
      requestNextRound l s rng = some (l', m) →
      l'.gameState ≠ l.gameState →
      l.gameState ≠ GameState.gameOver
        ∧ (l'.gameState = GameState.playing
            ∨ l'.gameState = GameState.gameOver))
    ∧ (∀ (l : Lobby) (sid : String) (rng : List Nat) (l' : Lobby) (m : List Msg),
      handleDisconnect l sid rng = some (some l', m) →
      l'.gameState ≠ l.gameState →
      (l.gameState ≠ GameState.waiting ∧ l.gameState ≠ GameState.gameOver)
        ∧ (l'.gameState = GameState.playing
            ∨ l'.gameState = GameState.gameOver))
    ∧ (∀ (l0 : Lobby) (rng : List Nat) (l' : Lobby) (m : List Msg),
      roundOverTimer (some l0) rng = some (some l', m) →
      l'.gameState ≠ l0.gameState →
      l0.gameState = GameState.roundOver
        ∧ (l'.gameState = GameState.playing
            ∨ l'.gameState = GameState.gameOver)) := by
  refine ⟨?_, ?_, ?_, ?_, ?_, ?_⟩
  · intro l s ids rng l' m h hne
    cases hgp : getLobbyPlayer l s with
    | none =>
      simp only [submitCards, hgp, Option.some.injEq, Prod.mk.injEq] at h
      obtain ⟨h1, -⟩ := h; subst h1; exact absurd rfl hne
    | some player =>
      by_cases hguard : l.gameState ≠ GameState.playing
          ∨ l.czarId = some player.id ∨ player.submittedCards.isSome = true
      · simp only [submitCards, hgp, if_pos hguard, Option.some.injEq,
          Prod.mk.injEq] at h
        obtain ⟨h1, -⟩ := h; subst h1; exact absurd rfl hne
      · push_neg at hguard
        cases hbc : l.currentBlackCard with
        | none =>
          simp only [submitCards, hgp, hbc] at h
          rw [if_neg (by push_neg; exact hguard)] at h
          exact absurd h (by simp)
        | some bc =>
          by_cases hlen : ids.length ≠ (if bc.pick = 0 then 1 else bc.pick)
          · simp only [submitCards, hgp, hbc] at h
            rw [if_neg (by push_neg; exact hguard), if_pos hlen] at h
            simp only [Option.some.injEq, Prod.mk.injEq] at h
            obtain ⟨h1, -⟩ := h; subst h1; exact absurd rfl hne
          · cases hres : resolveCards player.hand ids with
            | none =>
              simp only [submitCards, hgp, hbc, hres] at h
              rw [if_neg (by push_neg; exact hguard), if_neg hlen] at h
              simp only [Option.some.injEq, Prod.mk.injEq] at h
              obtain ⟨h1, -⟩ := h; subst h1; exact absurd rfl hne
            | some objs =>
              simp only [submitCards, hgp, hbc, hres] at h
              rw [if_neg (by push_neg; exact hguard), if_neg hlen] at h
              split at h
              · simp only [Option.some.injEq, Prod.mk.injEq] at h
                obtain ⟨h1, -⟩ := h; subst h1
                exact ⟨hguard.1, rfl⟩
              · simp only [Option.some.injEq, Prod.mk.injEq] at h
                obtain ⟨h1, -⟩ := h; subst h1; exact absurd rfl hne
  · intro l s w l' m h hne
    cases hgp : getLobbyPlayer l s with
    | none =>
      simp only [selectWinner, hgp, Option.some.injEq, Prod.mk.injEq] at h
      obtain ⟨h1, -⟩ := h; subst h1; exact absurd rfl hne
    | some czar =>
      by_cases hguard : l.gameState ≠ GameState.judging
          ∨ l.czarId ≠ some czar.id
      · simp only [selectWinner, hgp, if_pos hguard, Option.some.injEq,
          Prod.mk.injEq] at h
        obtain ⟨h1, -⟩ := h; subst h1; exact absurd rfl hne
      · push_neg at hguard
        cases hsub : l.roundSubmissions.find? (fun sub => sub.playerId == w) with
        | none =>
          simp only [selectWinner, hgp, hsub] at h
          rw [if_neg (by push_neg; exact hguard)] at h
          simp only [Option.some.injEq, Prod.mk.injEq] at h
          obtain ⟨h1, -⟩ := h; subst h1; exact absurd rfl hne
        | some sub =>
          cases hwin : getLobbyPlayer l w with
          | none =>
            simp only [selectWinner, hgp, hsub, hwin] at h
            rw [if_neg (by push_neg; exact hguard)] at h
            exact absurd h (by simp)
          | some winner =>
            cases hbc : l.currentBlackCard with
            | none =>
              simp only [selectWinner, hgp, hsub, hwin, hbc] at h
              rw [if_neg (by push_neg; exact hguard)] at h
              exact absurd h (by simp)
            | some bc =>
              by_cases hwinning : l.settings.scoreToWin ≤ winner.score + 1
              · simp only [selectWinner, hgp, hsub, hwin, hbc] at h
                rw [if_neg (by push_neg; exact hguard), if_pos hwinning] at h
                simp only [Option.some.injEq, Prod.mk.injEq] at h
                obtain ⟨h1, -⟩ := h; subst h1
                exact ⟨hguard.1, Or.inr rfl⟩
              · simp only [selectWinner, hgp, hsub, hwin, hbc] at h
                rw [if_neg (by push_neg; exact hguard), if_neg hwinning] at h
                simp only [Option.some.injEq, Prod.mk.injEq] at h
                obtain ⟨h1, -⟩ := h; subst h1
                exact ⟨hguard.1, Or.inl rfl⟩
  · intro l s ws bs rng l' m h hne
    by_cases hguard : l.hostId ≠ s ∨ l.gameState ≠ GameState.waiting
    · simp only [startGame, if_pos hguard, Option.some.injEq,
        Prod.mk.injEq] at h
      obtain ⟨h1, -⟩ := h; subst h1; exact absurd rfl hne
    · push_neg at hguard
      by_cases hlen : l.players.length < 3
      · simp only [startGame] at h
        rw [if_neg (by push_neg; exact hguard), if_pos hlen] at h
        simp only [Option.some.injEq, Prod.mk.injEq] at h
        obtain ⟨h1, -⟩ := h; subst h1; exact absurd rfl hne
      · simp only [startGame] at h
        rw [if_neg (by push_neg; exact hguard), if_neg hlen] at h
        split at h
        · exact absurd h (by simp)
        · exact ⟨hguard.2, startNextRound_gameState _ _ _ _ h⟩
  · intro l s rng l' m h hne
    by_cases hcond : (l.hostId = s ∨ l.gameState = GameState.roundOver)
        ∧ l.gameState ≠ GameState.gameOver
    · simp only [requestNextRound, if_pos hcond] at h
      exact ⟨hcond.2, startNextRound_gameState _ _ _ _ h⟩
    · simp only [requestNextRound, if_neg hcond, Option.some.injEq,
        Prod.mk.injEq] at h
      obtain ⟨h1, -⟩ := h; subst h1; exact absurd rfl hne
  · intro l sid rng l' m h hne
    cases hidx : l.players.findIdx? (fun p => p.id == sid) with
    | none =>
      simp only [handleDisconnect, hidx, Option.some.injEq, Prod.mk.injEq] at h
      obtain ⟨h1, -⟩ := h; subst h1; exact absurd rfl hne
    | some playerIndex =>
      cases herase : l.players.eraseIdx playerIndex with
      | nil =>
        simp only [handleDisconnect, hidx, herase, Option.some.injEq,
          Prod.mk.injEq] at h
        obtain ⟨h1, -⟩ := h
        exact absurd h1 (by simp)
      | cons p0 rest =>
        by_cases hhost : l.hostId = sid
        · by_cases hmid : l.gameState ≠ GameState.waiting
              ∧ l.gameState ≠ GameState.gameOver
          · by_cases hcz : l.czarId = some sid
            · simp only [handleDisconnect, hidx, herase] at h
              rw [if_pos hhost] at h
              rw [if_pos hmid, if_pos hcz] at h
              split at h
              · exact absurd h (by simp)
              · rename_i l3 m3 heq
                simp only [Option.some.injEq, Prod.mk.injEq,
                  Option.some.injEq] at h
                obtain ⟨h1, -⟩ := h; subst h1
                exact ⟨hmid, startNextRound_gameState _ _ _ _ heq⟩
            · by_cases h3 : (p0 :: rest).length < 3
                  ∧ l.gameState ≠ GameState.waiting
              · simp only [handleDisconnect, hidx, herase] at h
                rw [if_pos hhost] at h
                rw [if_pos hmid, if_neg hcz, if_pos h3] at h
                simp only [Option.some.injEq, Prod.mk.injEq,
                  Option.some.injEq] at h
                obtain ⟨h1, -⟩ := h; subst h1
                exact ⟨hmid, Or.inr rfl⟩
              · simp only [handleDisconnect, hidx, herase] at h
                rw [if_pos hhost] at h
                rw [if_pos hmid, if_neg hcz, if_neg h3] at h
                simp only [Option.some.injEq, Prod.mk.injEq,
                  Option.some.injEq] at h
                obtain ⟨h1, -⟩ := h; subst h1; exact absurd rfl hne
          · simp only [handleDisconnect, hidx, herase] at h
            rw [if_pos hhost] at h
            rw [if_neg hmid] at h
            simp only [Option.some.injEq, Prod.mk.injEq,
              Option.some.injEq] at h
            obtain ⟨h1, -⟩ := h; subst h1; exact absurd rfl hne
        · by_cases hmid : l.gameState ≠ GameState.waiting
              ∧ l.gameState ≠ GameState.gameOver
          · by_cases hcz : l.czarId = some sid
            · simp only [handleDisconnect, hidx, herase] at h
              rw [if_neg hhost] at h
              rw [if_pos hmid, if_pos hcz] at h
              split at h
              · exact absurd h (by simp)
              · rename_i l3 m3 heq
                simp only [Option.some.injEq, Prod.mk.injEq,
                  Option.some.injEq] at h
                obtain ⟨h1, -⟩ := h; subst h1
                exact ⟨hmid, startNextRound_gameState _ _ _ _ heq⟩
            · by_cases h3 : (p0 :: rest).length < 3
                  ∧ l.gameState ≠ GameState.waiting
              · simp only [handleDisconnect, hidx, herase] at h
                rw [if_neg hhost] at h
                rw [if_pos hmid, if_neg hcz, if_pos h3] at h
                simp only [Option.some.injEq, Prod.mk.injEq,
                  Option.some.injEq] at h
                obtain ⟨h1, -⟩ := h; subst h1
                exact ⟨hmid, Or.inr rfl⟩
              · simp only [handleDisconnect, hidx, herase] at h
                rw [if_neg hhost] at h
                rw [if_pos hmid, if_neg hcz, if_neg h3] at h
                simp only [Option.some.injEq, Prod.mk.injEq,
                  Option.some.injEq] at h
                obtain ⟨h1, -⟩ := h; subst h1; exact absurd rfl hne
          · simp only [handleDisconnect, hidx, herase] at h
            rw [if_neg hhost] at h
            rw [if_neg hmid] at h
            simp only [Option.some.injEq, Prod.mk.injEq,
              Option.some.injEq] at h
            obtain ⟨h1, -⟩ := h; subst h1; exact absurd rfl hne
  · intro l0 rng l' m h hne
    by_cases hcond : l0.gameState = GameState.roundOver
        ∧ l0.gameState ≠ GameState.gameOver
    · simp only [roundOverTimer, if_pos hcond] at h
      split at h
      · exact absurd h (by simp)
      · rename_i l3 m3 heq
        simp only [Option.some.injEq, Prod.mk.injEq, Option.some.injEq] at h
        obtain ⟨h1, -⟩ := h; subst h1
        exact ⟨hcond.1, startNextRound_gameState _ _ _ _ heq⟩
    · simp only [roundOverTimer, if_neg hcond, Option.some.injEq,
        Prod.mk.injEq, Option.some.injEq] at h
      obtain ⟨h1, -⟩ := h; subst h1; exact absurd rfl hne

theorem C9_witness :
    c9Lobby.gameState ≠ GameState.gameOver
    ∧ (c9After.gameState = GameState.playing
        ∨ c9After.gameState = GameState.gameOver) :=
  C9_thm.2.2.2.1 c9Lobby "p0" [] c9After [Msg.lobbyUpdate]
    (by decide) (by decide)

/-- Claim C5 (amended): submitted white cards reach the white discard pile
only through `selectWinner` (first conjunct: every completed `selectWinner`
either rejects, leaving the session untouched, or appends exactly the
submitted cards of the round to the white discard pile).  A round that ends
without a winner selection loses them: `startNextRound` removes the pending
submissions' cards from the union of draw pile, discard pile, hands and
submissions (second conjunct: the white-card multiset of the resulting
session is the incoming one minus the pending submission cards). -/
theorem C5_thm :
    (∀ (l : Lobby) (s w : String) (l' : Lobby) (m : List Msg),
      selectWinner l s w = some (l', m) →
      l' = l ∨ l'.whiteDiscard = l.whiteDiscard
        ++ l.roundSubmissions.flatMap (fun sub => sub.cards))
    ∧ (∀ (l : Lobby) (rng : List Nat) (l' : Lobby) (m : List Msg),
      startNextRound l rng = some (l', m) →
      allWhiteM l'
        + (l.roundSubmissions.map (fun sub => (sub.cards : Multiset Card))).sum
      = allWhiteM l) := by
  constructor
  · intro l s w l' m h
    cases hgp : getLobbyPlayer l s with
    | none =>
      simp only [selectWinner, hgp, Option.some.injEq, Prod.mk.injEq] at h
      obtain ⟨h1, -⟩ := h; subst h1; exact Or.inl rfl
    | some czar =>
      by_cases hguard : l.gameState ≠ GameState.judging
          ∨ l.czarId ≠ some czar.id
      · simp only [selectWinner, hgp, if_pos hguard, Option.some.injEq,
          Prod.mk.injEq] at h
        obtain ⟨h1, -⟩ := h; subst h1; exact Or.inl rfl
      · push_neg at hguard
        cases hsub : l.roundSubmissions.find? (fun sub => sub.playerId == w) with
        | none =>
          simp only [selectWinner, hgp, hsub] at h
          rw [if_neg (by push_neg; exact hguard)] at h
          simp only [Option.some.injEq, Prod.mk.injEq] at h
          obtain ⟨h1, -⟩ := h; subst h1; exact Or.inl rfl
        | some sub =>
          cases hwin : getLobbyPlayer l w with
          | none =>
            simp only [selectWinner, hgp, hsub, hwin] at h
            rw [if_neg (by push_neg; exact hguard)] at h
            exact absurd h (by simp)
          | some winner =>
            cases hbc : l.currentBlackCard with
            | none =>
              simp only [selectWinner, hgp, hsub, hwin, hbc] at h
              rw [if_neg (by push_neg; exact hguard)] at h
              exact absurd h (by simp)
            | some bc =>
              by_cases hwinning : l.settings.scoreToWin ≤ winner.score + 1
              · simp only [selectWinner, hgp, hsub, hwin, hbc] at h
                rw [if_neg (by push_neg; exact hguard), if_pos hwinning] at h
                simp only [Option.some.injEq, Prod.mk.injEq] at h
                obtain ⟨h1, -⟩ := h; subst h1; exact Or.inr rfl
              · simp only [selectWinner, hgp, hsub, hwin, hbc] at h
                rw [if_neg (by push_neg; exact hguard), if_neg hwinning] at h
                simp only [Option.some.injEq, Prod.mk.injEq] at h
                obtain ⟨h1, -⟩ := h; subst h1; exact Or.inr rfl
  · intro l rng l' m h
    simp only [startNextRound] at h
    split at h
    · exact absurd h (by simp)
    · split at h
      · simp only [Option.some.injEq, Prod.mk.injEq] at h
        obtain ⟨h1, -⟩ := h; subst h1
        simp only [allWhiteM, List.map_map, List.map_nil, List.sum_nil]
        have hhands : (List.map ((fun p => (p.hand : Multiset Card)) ∘ resetSub)
            l.players).sum
            = (List.map (fun p => (p.hand : Multiset Card)) l.players).sum := rfl
        rw [hhands]
        abel
      · by_cases hbd : l.blackDeck = []
        · rw [if_pos hbd, if_pos hbd] at h
          split at h
          · exact absurd h (by simp)
          · simp only [Option.some.injEq, Prod.mk.injEq] at h
            obtain ⟨h1, -⟩ := h; subst h1
            simp only [allWhiteM, List.map_nil, List.sum_nil]
            have hc := dealToAll_coe (l.players.map resetSub)
              l.whiteDeck l.whiteDiscard
              (shuffleList l.blackDiscard rng).2
            simp only at hc
            have hhands : (List.map (fun p => (p.hand : Multiset Card))
                (l.players.map resetSub)).sum
                = (List.map (fun p => (p.hand : Multiset Card)) l.players).sum := by
              rw [List.map_map]; rfl
            rw [hhands] at hc
            rw [add_zero]
            have : ∀ (A B C S D E F : Multiset Card),
                A + B + C = D + E + F → A + B + C + S = D + E + F + S := by
              intro A B C S D E F hh; rw [hh]
            exact this _ _ _ _ _ _ _ hc
        · rw [if_neg hbd, if_neg hbd] at h
          split at h
          · exact absurd h (by simp)
          · simp only [Option.some.injEq, Prod.mk.injEq] at h
            obtain ⟨h1, -⟩ := h; subst h1
            simp only [allWhiteM, List.map_nil, List.sum_nil]
            have hc := dealToAll_coe (l.players.map resetSub)
              l.whiteDeck l.whiteDiscard rng
            simp only at hc
            have hhands : (List.map (fun p => (p.hand : Multiset Card))
                (l.players.map resetSub)).sum
                = (List.map (fun p => (p.hand : Multiset Card)) l.players).sum := by
              rw [List.map_map]; rfl
            rw [hhands] at hc
            rw [add_zero]
            have : ∀ (A B C S D E F : Multiset Card),
                A + B + C = D + E + F → A + B + C + S = D + E + F + S := by
              intro A B C S D E F hh; rw [hh]
            exact this _ _ _ _ _ _ _ hc

def c5bAfter : Lobby :=
  match selectWinner c10Lobby "p0" "p1" with
  | some (l, _) => l
  | none => c10Lobby

theorem C5_witness :
    (c5bAfter = c10Lobby ∨ c5bAfter.whiteDiscard = c10Lobby.whiteDiscard
      ++ c10Lobby.roundSubmissions.flatMap (fun sub => sub.cards))
    ∧ allWhiteM c5After
      + (c5Lobby.roundSubmissions.map
          (fun sub => (sub.cards : Multiset Card))).sum
      = allWhiteM c5Lobby :=
  ⟨C5_thm.1 c10Lobby "p0" "p1" c5bAfter [Msg.lobbyUpdate] (by decide),
   C5_thm.2 c5Lobby [] c5After [Msg.lobbyUpdate] (by decide)⟩

theorem totalNeed_reset (ps : List Player) :
    totalNeed (ps.map resetSub) = totalNeed ps := by
  unfold totalNeed
  rw [List.map_map]
  rfl

theorem nextCzarIdx_head (q : Player) (rest : List Player)
    (h2 : 2 ≤ (q :: rest).length) :
    nextCzarIdx (q :: rest) (some q.id) = 1 := by
  have hfi : List.findIdx? (fun p => some q.id == some p.id) (q :: rest)
      = some 0 := by
    rw [List.findIdx?_cons]
    simp
  unfold nextCzarIdx
  simp only [hfi]
  have hmod : (((0 : Nat) : Int) + 1) % (((q :: rest).length : Nat) : Int)
      = 1 := by
    apply Int.emod_eq_of_lt (by omega)
    have : (2 : Int) ≤ (((q :: rest).length : Nat) : Int) := by
      exact_mod_cast h2
    omega
  rw [hmod]
  rfl

theorem nextCzarIdx_notmem (players : List Player) (cz : Option String)
    (h : ∀ p ∈ players, ¬ cz = some p.id) :
    nextCzarIdx players cz = 0 := by
  have hfind : players.findIdx? (fun p => cz == some p.id) = none := by
    rw [List.findIdx?_eq_none_iff]
    intro p hp
    simp only [beq_eq_false_iff_ne, ne_eq]
    exact h p hp
  unfold nextCzarIdx
  simp only [hfind]
  rw [show (-1 : Int) + 1 = 0 from rfl, Int.zero_emod]
  rfl

/-- Characterization of a successful `startNextRound`: given a designated
next czar (the roster entry at `nextCzarIdx`) and a non-exhausted black
supply, the new round is entered in state `playing` with that czar, the
previous prompt lands in the black discard pile, and — when the white supply
suffices and no hand was over-full — every hand is topped up to
`MAX_HAND_SIZE`. -/
theorem startNextRound_run (lobby : Lobby) (rng : List Nat) (nc : Player)
    (hnc : (lobby.players.map resetSub)[nextCzarIdx (lobby.players.map resetSub)
      lobby.czarId]? = some nc)
    (hb : ¬(lobby.blackDeck = [] ∧ lobby.blackDiscard = [])) :
    ∃ l', startNextRound lobby rng = some (l', [Msg.lobbyUpdate])
      ∧ l'.gameState = GameState.playing
      ∧ l'.czarId = some nc.id
      ∧ (∀ pc, lobby.currentBlackCard = some pc → pc ∈ l'.blackDiscard)
      ∧ ((∀ p ∈ lobby.players, p.hand.length ≤ MAX_HAND_SIZE) →
          totalNeed lobby.players
            ≤ lobby.whiteDeck.length + lobby.whiteDiscard.length →
          ∀ p ∈ l'.players, p.hand.length = MAX_HAND_SIZE) := by
  have htop : ∀ (rng₂ : List Nat),
      (∀ p ∈ lobby.players, p.hand.length ≤ MAX_HAND_SIZE) →
      totalNeed lobby.players
        ≤ lobby.whiteDeck.length + lobby.whiteDiscard.length →
      ∀ p ∈ (dealToAll (lobby.players.map resetSub)
          lobby.whiteDeck lobby.whiteDiscard rng₂).1,
        p.hand.length = MAX_HAND_SIZE := by
    intro rng₂ hbound hsup
    apply dealToAll_topped
    · intro p hp
      obtain ⟨q, hq, rfl⟩ := List.mem_map.mp hp
      exact hbound q hq
    · rw [totalNeed_reset]
      exact hsup
  simp only [startNextRound, hnc]
  rw [if_neg hb]
  by_cases hbd : lobby.blackDeck = []
  · have hdis : lobby.blackDiscard ≠ [] := by
      intro hc; exact hb ⟨hbd, hc⟩
    rw [if_pos hbd, if_pos hbd]
    dsimp only
    have hshuf := shuffleList_ne_nil lobby.blackDiscard rng hdis
    cases hlast : (shuffleList lobby.blackDiscard rng).1.getLast? with
    | none =>
      rw [List.getLast?_eq_getLast _ hshuf] at hlast
      exact absurd hlast (by simp)
    | some bc =>
      simp only [hlast]
      refine ⟨_, rfl, rfl, rfl, ?_, ?_⟩
      · intro pc hpc
        simp only [hpc, List.mem_append, List.mem_singleton]
        right
        trivial
      · intro hbound hsup
        exact htop _ hbound hsup
  · rw [if_neg hbd, if_neg hbd]
    dsimp only
    cases hlast : lobby.blackDeck.getLast? with
    | none =>
      rw [List.getLast?_eq_getLast _ hbd] at hlast
      exact absurd hlast (by simp)
    | some bc =>
      simp only [hlast]
      refine ⟨_, rfl, rfl, rfl, ?_, ?_⟩
      · intro pc hpc
        simp only [hpc, List.mem_append, List.mem_singleton]
        right
        trivial
      · intro hbound hsup
        exact htop _ hbound hsup

/-- Claim C7 (amended): when the czar disconnects mid-game, a new round
starts automatically, but its czar is the *first member of the remaining
roster* (the departed czar is removed before `startNextRound` runs, so
`findIndex` returns `-1` and `(-1 + 1) % length` selects index 0), which is
the next member after the departed czar only when the czar was first or last
in roster order.  The previous prompt is moved to the black discard pile and
every remaining hand is topped up to 10 (when the white supply suffices and
no hand was over-full). -/
theorem C7_thm (lobby : Lobby) (sockId : String) (rng : List Nat)
    (playerIndex : Nat) (p0 : Player) (rest : List Player)
    (hidx : lobby.players.findIdx? (fun p => p.id == sockId) = some playerIndex)
    (herase : lobby.players.eraseIdx playerIndex = p0 :: rest)
    (hmid : lobby.gameState ≠ GameState.waiting
      ∧ lobby.gameState ≠ GameState.gameOver)
    (hcz : lobby.czarId = some sockId)
    (hnodup : ∀ p ∈ p0 :: rest, p.id ≠ sockId)
    (hb : ¬(lobby.blackDeck = [] ∧ lobby.blackDiscard = [])) :
    ∃ l' m, handleDisconnect lobby sockId rng = some (some l', m)
      ∧ l'.gameState = GameState.playing
      ∧ l'.czarId = some p0.id
      ∧ (∀ pc, lobby.currentBlackCard = some pc → pc ∈ l'.blackDiscard)
      ∧ ((∀ p ∈ p0 :: rest, p.hand.length ≤ MAX_HAND_SIZE) →
          totalNeed (p0 :: rest)
            ≤ lobby.whiteDeck.length + lobby.whiteDiscard.length →
          ∀ p ∈ l'.players, p.hand.length = MAX_HAND_SIZE) := by
  have hnotmem : ∀ p ∈ (p0 :: rest).map resetSub,
      ¬ lobby.czarId = some p.id := by
    intro p hp
    obtain ⟨q, hq, rfl⟩ := List.mem_map.mp hp
    rw [hcz]
    intro heq
    injection heq with heq
    exact hnodup q hq heq.symm
  have hidx0 : nextCzarIdx ((p0 :: rest).map resetSub) lobby.czarId = 0 :=
    nextCzarIdx_notmem _ _ hnotmem
  have hnc : ((p0 :: rest).map resetSub)[nextCzarIdx
      ((p0 :: rest).map resetSub) lobby.czarId]? = some (resetSub p0) := by
    rw [hidx0]
    simp only [List.map_cons, List.getElem?_cons_zero]
  by_cases hhost : lobby.hostId = sockId
  · simp only [handleDisconnect, hidx, herase]
    rw [if_pos hhost]
    rw [if_pos hmid, if_pos hcz]
    obtain ⟨l', heq, hstate, hczar, hprompt, hhands⟩ :=
      startNextRound_run
        { code := lobby.code, players := p0 :: rest, hostId := p0.id,
          gameState := lobby.gameState, settings := lobby.settings,
          whiteDeck := lobby.whiteDeck, blackDeck := lobby.blackDeck,
          whiteDiscard := lobby.whiteDiscard,
          blackDiscard := lobby.blackDiscard,
          currentBlackCard := lobby.currentBlackCard, czarId := lobby.czarId,
          roundSubmissions := lobby.roundSubmissions,
          roundWinnerInfo := lobby.roundWinnerInfo } rng (resetSub p0) hnc hb
    rw [heq]
    exact ⟨l', _, rfl, hstate, hczar, hprompt, hhands⟩
  · simp only [handleDisconnect, hidx, herase]
    rw [if_neg hhost]
    rw [if_pos hmid, if_pos hcz]
    obtain ⟨l', heq, hstate, hczar, hprompt, hhands⟩ :=
      startNextRound_run
        { code := lobby.code, players := p0 :: rest, hostId := lobby.hostId,
          gameState := lobby.gameState, settings := lobby.settings,
          whiteDeck := lobby.whiteDeck, blackDeck := lobby.blackDeck,
          whiteDiscard := lobby.whiteDiscard,
          blackDiscard := lobby.blackDiscard,
          currentBlackCard := lobby.currentBlackCard, czarId := lobby.czarId,
          roundSubmissions := lobby.roundSubmissions,
          roundWinnerInfo := lobby.roundWinnerInfo } rng (resetSub p0) hnc hb
    rw [heq]
    exact ⟨l', _, rfl, hstate, hczar, hprompt, hhands⟩

def fullHand (n : Nat) : List Card := List.replicate 10 (wc n)

/-- Four members with full hands, czar `p1`, mid-round; used to witness the
amended claim C7. -/
def c7wLobby : Lobby :=
  { code := "HHHHH"
    players :=
      [⟨"p0", "P0", 0, fullHand 1, none⟩,
       ⟨"p1", "P1", 0, fullHand 2, none⟩,
       ⟨"p2", "P2", 0, fullHand 3, none⟩,
       ⟨"p3", "P3", 0, fullHand 4, none⟩]
    hostId := "p0"
    gameState := GameState.playing
    settings := baseSettings
    whiteDeck := []
    blackDeck := [bCard2]
    whiteDiscard := []
    blackDiscard := []
    currentBlackCard := some bCard1
    czarId := some "p1"
    roundSubmissions := []
    roundWinnerInfo := none }

theorem C7_witness :
    ∃ l' m, handleDisconnect c7wLobby "p1" [] = some (some l', m)
      ∧ l'.gameState = GameState.playing
      ∧ l'.czarId = some "p0"
      ∧ (∀ pc, c7wLobby.currentBlackCard = some pc → pc ∈ l'.blackDiscard)
      ∧ ((∀ p ∈ [(⟨"p0", "P0", 0, fullHand 1, none⟩ : Player),
            ⟨"p2", "P2", 0, fullHand 3, none⟩,
            ⟨"p3", "P3", 0, fullHand 4, none⟩],
            p.hand.length ≤ MAX_HAND_SIZE) →
          totalNeed [(⟨"p0", "P0", 0, fullHand 1, none⟩ : Player),
            ⟨"p2", "P2", 0, fullHand 3, none⟩,
            ⟨"p3", "P3", 0, fullHand 4, none⟩]
            ≤ c7wLobby.whiteDeck.length + c7wLobby.whiteDiscard.length →
          ∀ p ∈ l'.players, p.hand.length = MAX_HAND_SIZE) :=
  C7_thm c7wLobby "p1" [] 1 ⟨"p0", "P0", 0, fullHand 1, none⟩
    [⟨"p2", "P2", 0, fullHand 3, none⟩, ⟨"p3", "P3", 0, fullHand 4, none⟩]
    (by decide) (by decide) (by decide) (by decide) (by decide) (by decide)

/-- Claim C4 (amended): a valid `startGame` (host, state `waiting`, at least
3 members, a non-empty black pool) enters the first `playing` round with the
*second* member in roster order as czar: the handler seeds `czarId` with the
first member and `startNextRound` immediately advances it by one. -/
theorem C4_thm (lobby : Lobby) (senderId : String) (whites blacks : List Card)
    (rng : List Nat)
    (hw : lobby.gameState = GameState.waiting) (hh : lobby.hostId = senderId)
    (h3 : 3 ≤ lobby.players.length) (hblacks : blacks ≠ []) :
    ∃ l' m, startGame lobby senderId whites blacks rng = some (l', m)
      ∧ l'.gameState = GameState.playing
      ∧ l'.czarId = (lobby.players.map (fun p => p.id))[1]? := by
  have h0lt : 0 < lobby.players.length := by omega
  have h1lt : 1 < lobby.players.length := by omega
  have hq0 : lobby.players[0]? = some (lobby.players.get ⟨0, h0lt⟩) := by
    rw [List.getElem?_eq_getElem h0lt]
    rfl
  have hq1 : lobby.players[1]? = some (lobby.players.get ⟨1, h1lt⟩) := by
    rw [List.getElem?_eq_getElem h1lt]
    rfl
  simp only [startGame]
  rw [if_neg (by push_neg; exact ⟨hh, hw⟩), if_neg (by omega)]
  have hps0 : (lobby.players.map
      (fun p => ({ p with score := 0, hand := ([] : List Card) } : Player)))[0]?
      = some { lobby.players.get ⟨0, h0lt⟩ with
          score := 0, hand := ([] : List Card) } := by
    rw [List.getElem?_map, hq0]
    rfl
  have hps1 : (lobby.players.map
      (fun p => ({ p with score := 0, hand := ([] : List Card) } : Player)))[1]?
      = some { lobby.players.get ⟨1, h1lt⟩ with
          score := 0, hand := ([] : List Card) } := by
    rw [List.getElem?_map, hq1]
    rfl
  obtain ⟨hand0, hr0⟩ := dealToAll_get?
    (lobby.players.map (fun p => { p with score := 0, hand := ([] : List Card) }))
    (shuffleList whites rng).1 []
    (shuffleList blacks (shuffleList whites rng).2).2 0 _ hps0
  obtain ⟨hand1, hr1⟩ := dealToAll_get?
    (lobby.players.map (fun p => { p with score := 0, hand := ([] : List Card) }))
    (shuffleList whites rng).1 []
    (shuffleList blacks (shuffleList whites rng).2).2 1 _ hps1
  have hrlen : (dealToAll
      (lobby.players.map (fun p => { p with score := 0, hand := ([] : List Card) }))
      (shuffleList whites rng).1 []
      (shuffleList blacks (shuffleList whites rng).2).2).1.length
      = lobby.players.length := by
    rw [dealToAll_length, List.length_map]
  cases hcons : (dealToAll
      (lobby.players.map (fun p => { p with score := 0, hand := ([] : List Card) }))
      (shuffleList whites rng).1 []
      (shuffleList blacks (shuffleList whites rng).2).2).1 with
  | nil =>
    rw [hcons] at hrlen
    simp at hrlen
    omega
  | cons a tail =>
    rw [hcons] at hr0 hr1
    simp only [List.getElem?_cons_zero, Option.some.injEq] at hr0
    simp only [List.getElem?_cons_succ] at hr1
    simp only [List.head?_cons]
    have h2le : 2 ≤ (a :: tail).length := by
      rw [← hcons, hrlen]
      omega
    have hmapcons : (a :: tail).map resetSub
        = resetSub a :: tail.map resetSub := rfl
    have hidx1 : nextCzarIdx ((a :: tail).map resetSub) (some a.id) = 1 := by
      rw [hmapcons]
      have := nextCzarIdx_head (resetSub a) (tail.map resetSub)
        (by simpa using h2le)
      simpa [resetSub] using this
    have hnc : ((a :: tail).map resetSub)[nextCzarIdx
        ((a :: tail).map resetSub) (some a.id)]?
        = (tail[0]?).map resetSub := by
      rw [hidx1, hmapcons]
      simp [List.getElem?_map]
    rw [hr1] at hnc
    obtain ⟨l', heq, hstate, hczar, -, -⟩ :=
      startNextRound_run
        { code := lobby.code,
          players := a :: tail,
          hostId := lobby.hostId, gameState := lobby.gameState,
          settings := lobby.settings,
          whiteDeck := (dealToAll
            (lobby.players.map
              (fun p => { p with score := 0, hand := ([] : List Card) }))
            (shuffleList whites rng).1 []
            (shuffleList blacks (shuffleList whites rng).2).2).2.1,
          blackDeck := (shuffleList blacks (shuffleList whites rng).2).1,
          whiteDiscard := (dealToAll
            (lobby.players.map
              (fun p => { p with score := 0, hand := ([] : List Card) }))
            (shuffleList whites rng).1 []
            (shuffleList blacks (shuffleList whites rng).2).2).2.2.1,
          blackDiscard := [],
          currentBlackCard := lobby.currentBlackCard,
          czarId := some a.id,
          roundSubmissions := lobby.roundSubmissions,
          roundWinnerInfo := lobby.roundWinnerInfo }
        (dealToAll
          (lobby.players.map
            (fun p => { p with score := 0, hand := ([] : List Card) }))
          (shuffleList whites rng).1 []
          (shuffleList blacks (shuffleList whites rng).2).2).2.2.2
        (resetSub { lobby.players.get ⟨1, h1lt⟩ with
          score := 0, hand := hand1 })
        (by
          simpa using hnc)
        (by
          intro hcontra
          exact shuffleList_ne_nil blacks _ hblacks hcontra.1)
    refine ⟨l', [Msg.lobbyUpdate], ?_, hstate, ?_⟩
    · rw [← heq]
    · rw [hczar, List.getElem?_map, hq1]
      rfl

theorem C4_witness :
    ∃ l' m, startGame c4Lobby "p0" [] [bCard1] [] = some (l', m)
      ∧ l'.gameState = GameState.playing
      ∧ l'.czarId = (c4Lobby.players.map (fun p => p.id))[1]? :=
  C4_thm c4Lobby "p0" [] [bCard1] []
    (by decide) (by decide) (by decide) (by decide)

end NAH
